import Mathlib

/-!
Verification of the event-to-span correlation engine of go-test-trace.

The definitions below are a shallow embedding of the repository's Go
sources: `main.go` (the structured `go test -json` mode: `trace`,
`testKey`, `parentContext`) and `parser.go` (the unstructured stdin
mode: `parseLine`, `startSpanForLine`, `endSpanForLine`, `parseName`,
`parseNameAndDuration`).

Modelling choices:
- Timestamps and durations are `Int` nanoseconds (Go's `time.Time` /
  `time.Duration`).
- The OpenTelemetry SDK (an external collaborator) is modelled as a
  growing list of `Span` records indexed by creation order; `Span.End`
  and `SetStatus` on an already-ended span are no-ops, per the OTel
  specification.
- A `context.Context` is modelled by `Ctx`: the global root context,
  the child context returned when span number `i` was started, or the
  zero value (`nil`, stored by the stdin parser which discards the
  returned context).
- Go functions that can panic (out-of-range indexing on a regex match
  list) or that `return` early out of the consuming goroutine are
  total functions returning `Option`: `none` marks the panic / early
  return.
-/

namespace GoTestTrace

/-- A Go `context.Context` as observable by this program: the global root
context created in `trace`, the child context returned by `tracer.Start`
for span number `i`, or the zero value (the stdin parser stores a
`spanData` without a context). -/
inductive Ctx where
  | global : Ctx
  | child : Nat → Ctx
  | nil : Ctx
deriving DecidableEq, Repr

/-- Status of an OpenTelemetry span: either never set, or set to
`codes.Error` by `SetStatus(codes.Error, "")`. -/
inductive SpanStatus where
  | unset : SpanStatus
  | error : SpanStatus
deriving DecidableEq, Repr

/-- A span created through the tracing SDK.  `endTime = none` means the
span is still open. -/
structure Span where
  name : String
  parent : Ctx
  startTime : Int
  status : SpanStatus
  endTime : Option Int
deriving DecidableEq, Repr

/-- Go struct `spanData` (main.go): the per-key record stored in
`collectedSpans`.  The `span` field is modelled by the index `spanId`
into the list of all spans created so far. -/
structure SpanData where
  ctx : Ctx
  spanId : Nat
  startTime : Int
deriving DecidableEq, Repr

/-- `collectedSpans` is a Go map; we model it as an association list
with first-match lookup and overwriting insertion. -/
def lookupSD : List (String × SpanData) → String → Option SpanData
  | [], _ => none
  | (k, d) :: rest, key => if k = key then some d else lookupSD rest key

/-- Map update `collectedSpans[key] = d` (overwrites an existing entry). -/
def insertSD : List (String × SpanData) → String → SpanData → List (String × SpanData)
  | [], key, d => [(key, d)]
  | (k, d0) :: rest, key, d =>
      if k = key then (key, d) :: rest else (k, d0) :: insertSD rest key d

/-- The whole observable state of the program: the `collectedSpans`
registry, every span created through the tracer (in creation order), and
the text relayed to standard output so far. -/
structure TState where
  registry : List (String × SpanData)
  spans : List Span
  out : String
deriving DecidableEq, Repr

/-- State at program start: empty registry, no spans, nothing printed. -/
def initState : TState := { registry := [], spans := [], out := "" }

/-- `tracer.Start(parent, name, WithTimestamp ts)`: appends a fresh open
span and returns its index (the span handle / child context). -/
def startSpan (spans : List Span) (parent : Ctx) (nm : String) (ts : Int) :
    Nat × List Span :=
  (spans.length,
   spans ++ [{ name := nm, parent := parent, startTime := ts,
               status := SpanStatus.unset, endTime := none }])

/-- `span.SetStatus(codes.Error, "")`: no-op if the handle is invalid or
the span has already ended (OTel SDK semantics). -/
def setError (spans : List Span) (id : Nat) : List Span :=
  match spans[id]? with
  | none => spans
  | some s =>
      match s.endTime with
      | some _ => spans
      | none => spans.set id { s with status := SpanStatus.error }

/-- `span.End(WithTimestamp ts)`: records the end timestamp; a second
`End` is a no-op (OTel SDK semantics). -/
def endSpan (spans : List Span) (id : Nat) (ts : Int) : List Span :=
  match spans[id]? with
  | none => spans
  | some s =>
      match s.endTime with
      | some _ => spans
      | none => spans.set id { s with endTime := some ts }

/-- Go `testKey` (main.go): `pkg` when `test` is empty, otherwise
`pkg + "." + test`. -/
def testKey (pkg test : String) : String :=
  if test = "" then pkg else pkg ++ "." ++ test

/-- Index of the last `'/'` in a list of characters
(`strings.LastIndex(s, "/")`, with `none` for Go's `-1`). -/
def lastIdxSlash : List Char → Option Nat
  | [] => none
  | c :: rest =>
      match lastIdxSlash rest with
      | some i => some (i + 1)
      | none => if c = '/' then some 0 else none

/-- The loop body of Go `parentContext` (main.go): starting from
`until = untl`, repeatedly take `sep := strings.LastIndex(test[:until], "/")`;
stop with `none` when there is no slash; otherwise set `until := sep`,
and if `collectedSpans[testKey(pkg, test[:until])]` exists return its
context, else continue.  `fuel` bounds the iteration count; `sep < until`
at every step, so `test.length + 1` units of fuel always suffice. -/
def parentContextLoop (reg : List (String × SpanData)) (pkg : String)
    (test : List Char) : Nat → Nat → Option Ctx
  | _, 0 => none
  | untl, fuel + 1 =>
      match lastIdxSlash (test.take untl) with
      | none => none
      | some sep =>
          match lookupSD reg (testKey pkg (String.mk (test.take sep))) with
          | some d => some d.ctx
          | none => parentContextLoop reg pkg test sep fuel

/-- Go `parentContext` (main.go): for a test `"a/b/c"` try the parents
`"a/b"` then `"a"`, then the package entry, then the fallback context. -/
def parentContext (reg : List (String × SpanData)) (ctx : Ctx)
    (pkg test : String) : Ctx :=
  match parentContextLoop reg pkg test.data test.data.length (test.data.length + 1) with
  | some c => c
  | none =>
      match lookupSD reg pkg with
      | some d => d.ctx
      | none => ctx

/-- Modelled from the spec (§4.2, step 1): stripping the rightmost
`/`-segment of a candidate, i.e. the text before its last `'/'`. -/
def stripRightSegment (s : List Char) : Option (List Char) :=
  match lastIdxSlash s with
  | none => none
  | some sep => some (s.take sep)

/-- Modelled from the spec (§4.2): the list of candidates obtained by
progressively stripping the rightmost `/`-segment
(`"A/B/C" -> "A/B" -> "A"`).  `fuel` bounds the iteration. -/
def specStripCandidates : List Char → Nat → List (List Char)
  | _, 0 => []
  | s, fuel + 1 =>
      match stripRightSegment s with
      | none => []
      | some s1 => s1 :: specStripCandidates s1 fuel

/-- Modelled from the spec (§4.2): look up `scope + "." + candidate` for
each candidate and return the first match's context; otherwise the
scope-level entry's context; otherwise the global (fallback) context. -/
def parentContextSpec (reg : List (String × SpanData)) (ctx : Ctx)
    (pkg test : String) : Ctx :=
  match (specStripCandidates test.data (test.data.length + 1)).findSome?
      (fun cand => (lookupSD reg (testKey pkg (String.mk cand))).map SpanData.ctx) with
  | some c => c
  | none =>
      match lookupSD reg pkg with
      | some d => d.ctx
      | none => ctx

/-- Go struct `goTestOutput` (main.go): one decoded `go test -json`
record. -/
structure Event where
  time : Int
  action : String
  pkg : String
  test : String
  output : String
deriving DecidableEq, Repr

/-- One iteration of the consuming goroutine in `trace` (main.go):
dispatch on `data.Action`, then `fmt.Print(data.Output)`.  Returns
`none` when the goroutine executes `return` (terminal event whose key
has no entry in `collectedSpans`); in that case nothing is printed and
no further event is processed. -/
def traceStep (g : Ctx) (st : TState) (e : Event) : Option TState :=
  let key := testKey e.pkg e.test
  let stepped : Option TState :=
    if e.action = "start" then
      let (id, spans) := startSpan st.spans g e.pkg e.time
      some { st with
        registry := insertSD st.registry key
          { ctx := Ctx.child id, spanId := id, startTime := e.time },
        spans := spans }
    else if e.action = "run" then
      let parent := parentContext st.registry g e.pkg e.test
      let (id, spans) := startSpan st.spans parent e.test e.time
      some { st with
        registry := insertSD st.registry key
          { ctx := Ctx.child id, spanId := id, startTime := e.time },
        spans := spans }
    else if e.action = "pass" ∨ e.action = "fail" ∨ e.action = "skip" then
      match lookupSD st.registry key with
      | none => none
      | some d =>
          let spans1 := if e.action = "fail" then setError st.spans d.spanId else st.spans
          some { st with spans := endSpan spans1 d.spanId e.time }
    else
      some st
  stepped.map fun st1 => { st1 with out := st1.out ++ e.output }

/-- The consuming goroutine in `trace` (main.go), run over a finite list
of decoded events; it stops as soon as an iteration `return`s. -/
def traceRun (g : Ctx) (st : TState) : List Event → TState
  | [] => st
  | e :: es =>
      match traceStep g st e with
      | none => st
      | some st1 => traceRun g st1 es

/-! ## String helpers (Go `strings` package) -/

/-- `strings.HasPrefix` on character lists. -/
def strPfx : List Char → List Char → Bool
  | [], _ => true
  | _ :: _, [] => false
  | p :: ps, c :: cs => p == c && strPfx ps cs

/-- `strings.HasPrefix(s, p)`. -/
def hasPfx (p s : String) : Bool := strPfx p.data s.data

/-- `strings.Contains` on character lists (`sub` occurs in `s`). -/
def strContains : List Char → List Char → Bool
  | [], sub => strPfx sub []
  | c :: rest, sub => strPfx sub (c :: rest) || strContains rest sub

/-- `strings.Contains(s, sub)`. -/
def containsStr (s sub : String) : Bool := strContains s.data sub.data

/-- The ASCII white-space characters recognized by `unicode.IsSpace`
(`strings.TrimSpace`); the non-ASCII Unicode space characters never
occur in `go test` output. -/
def isTrimSpace (c : Char) : Bool :=
  c = ' ' || c = '\t' || c = '\n' || c = '\x0b' || c = '\x0c' || c = '\r'

/-- `strings.TrimSpace`. -/
def goTrimSpace (s : String) : String :=
  String.mk (((s.data.dropWhile isTrimSpace).reverse.dropWhile isTrimSpace).reverse)

/-! ## The two regular expressions of parser.go

`testNameRegex = (Test.+)` and
`testNameWithDurationRegex = (Test.+)\s\(([\w|\.]+)\)`, matched with
Go's leftmost-first (Perl-style) semantics and greedy `.+`.  Input
lines come from `bufio.Reader.ReadLine` and therefore contain no
newline, so `.` is modelled as matching any character. -/

/-- RE2 `\s`: `[\t\n\f\r ]`. -/
def isReSpace (c : Char) : Bool :=
  c = '\t' || c = '\n' || c = '\x0c' || c = '\r' || c = ' '

/-- RE2 `\w` (no Unicode flag): `[0-9A-Za-z_]`. -/
def isWordChar (c : Char) : Bool :=
  ('0' ≤ c && c ≤ '9') || ('A' ≤ c && c ≤ 'Z') || ('a' ≤ c && c ≤ 'z') || c = '_'

/-- The character class `[\w|\.]` of the duration group. -/
def isDurClass (c : Char) : Bool := isWordChar c || c = '|' || c = '.'

/-- First (leftmost) match of `Test.+`: the suffix beginning at the
leftmost occurrence of `"Test"` that is followed by at least one more
character; the greedy `.+` extends the match to the end of the line. -/
def findTestName : List Char → Option (List Char)
  | [] => none
  | c :: rest =>
      if strPfx "Test".data (c :: rest) = true ∧ 5 ≤ (c :: rest).length then
        some (c :: rest)
      else findTestName rest

/-- Go `parseName` (parser.go):
`testNameRegex.FindAllStringSubmatch(line, -1)[0][0]`.  `none` models
the index-out-of-range panic when the regex does not match. -/
def parseName? (line : String) : Option String :=
  (findTestName line.data).map String.mk

/-- After the first capture group, the rest of the pattern
`\s\(([\w|\.]+)\)` must match a prefix of `l`: one whitespace
character, `'('`, a non-empty run of `[\w|\.]` characters, `')'`.
Returns the duration group. -/
def checkDur (l : List Char) : Option (List Char) :=
  match l with
  | w :: '(' :: r =>
      if isReSpace w = true then
        match r.dropWhile isDurClass with
        | ')' :: _ =>
            match r.takeWhile isDurClass with
            | [] => none
            | run => some run
        | _ => none
      else none
  | _ => none

/-- Greedy matching of the first group `(Test.+)` at a fixed start
position: `g1rev` is the reversed current value of the group, `rest`
the remainder; the longest group value whose continuation matches wins.
The group must keep length at least 5 (`"Test"` plus one `.`). -/
def greedyDur : List Char → List Char → Option (List Char × List Char)
  | [], _ => none
  | c :: g1rev, rest =>
      if 5 ≤ (c :: g1rev).length then
        match checkDur rest with
        | some run => some ((c :: g1rev).reverse, run)
        | none => greedyDur g1rev (c :: rest)
      else none

/-- First (leftmost) match of `(Test.+)\s\(([\w|\.]+)\)`: scan start
positions left to right (a match must begin with the literal `"Test"`),
and at the first position admitting a match return the greedy groups
(test name, duration text). -/
def findNameDur : List Char → Option (List Char × List Char)
  | [] => none
  | c :: rest =>
      if strPfx "Test".data (c :: rest) = true then
        match greedyDur (c :: rest).reverse [] with
        | some r => some r
        | none => findNameDur rest
      else findNameDur rest

/-! ## Go `time.ParseDuration`

Modelled from the Go standard library (an external collaborator of this
repository).  A duration string is an optional sign followed by one or
more decimal-number-plus-unit components; `"0"` alone is allowed.  The
library computes the fractional part with `float64`; we use exact
integer arithmetic, which agrees on the inputs that occur here.
Overflow checking is omitted (timestamps are unbounded `Int`s in this
model). -/

/-- Leading decimal digits: accumulated value, number of digits
consumed, remainder. -/
def leadingDigits : Nat → Nat → List Char → Nat × Nat × List Char
  | acc, cnt, [] => (acc, cnt, [])
  | acc, cnt, c :: rest =>
      if c.isDigit then
        leadingDigits (acc * 10 + (c.toNat - '0'.toNat)) (cnt + 1) rest
      else (acc, cnt, c :: rest)

/-- Nanoseconds per unit (Go's `unitMap`). -/
def unitNanos (u : List Char) : Option Nat :=
  if u = "ns".data then some 1
  else if u = "us".data then some 1000
  else if u = "µs".data then some 1000
  else if u = "μs".data then some 1000
  else if u = "ms".data then some 1000000
  else if u = "s".data then some 1000000000
  else if u = "m".data then some 60000000000
  else if u = "h".data then some 3600000000000
  else none

/-- One `number unit` component: integer part, optional fraction, then
the unit (the maximal run of characters that are neither digits nor
`'.'`).  `none` on a malformed component. -/
def parseComponent (l : List Char) : Option (Nat × List Char) :=
  let (v, vn, r1) := leadingDigits 0 0 l
  let frac : Nat × Nat × Nat × List Char :=
    match r1 with
    | '.' :: r =>
        let (fv, fc, rr) := leadingDigits 0 0 r
        (fv, fc, 10 ^ fc, rr)
    | _ => (0, 0, 1, r1)
  match frac with
  | (f, fn, scale, r2) =>
      if vn = 0 ∧ fn = 0 then none
      else
        let u := r2.takeWhile (fun c => ¬(c.isDigit = true ∨ c = '.'))
        let r3 := r2.dropWhile (fun c => ¬(c.isDigit = true ∨ c = '.'))
        match unitNanos u with
        | none => none
        | some unit => some (v * unit + f * unit / scale, r3)

/-- The component loop of `time.ParseDuration`; each component consumes
at least one character, so `l.length + 1` units of fuel suffice. -/
def goParseDurationLoop : Nat → List Char → Option Nat
  | 0, _ => none
  | _, [] => some 0
  | fuel + 1, l =>
      match parseComponent l with
      | none => none
      | some (d, r) => (goParseDurationLoop fuel r).map (fun n => d + n)

/-- `time.ParseDuration`, returning `none` on error.  The sign handling
mirrors the library: a leading `'-'` or `'+'` is consumed, and `neg`
records whether it was `'-'`. -/
def goParseDuration? (s : String) : Option Int :=
  let neg : Bool := s.data.head? = some '-'
  let l : List Char :=
    if s.data.head? = some '-' ∨ s.data.head? = some '+' then s.data.tail
    else s.data
  if l = ['0'] then some 0
  else if l = [] then none
  else (goParseDurationLoop (l.length + 1) l).map
    (fun n => if neg then -(n : Int) else (n : Int))

/-- `dur, _ := time.ParseDuration(duration)` in `parseNameAndDuration`:
the error is discarded, leaving the zero duration. -/
def goParseDuration (s : String) : Int := (goParseDuration? s).getD 0

/-- Go `parseNameAndDuration` (parser.go): first match of
`testNameWithDurationRegex`; group 1 is the name, group 2 is fed to
`time.ParseDuration`.  `none` models the index-out-of-range panic when
the regex does not match. -/
def parseNameAndDuration? (line : String) : Option (String × Int) :=
  (findNameDur line.data).map
    (fun p => (String.mk p.1, goParseDuration (String.mk p.2)))

/-! ## The unstructured (stdin) parser -/

/-- Go `parser.startSpanForLine` (parser.go): extract the name, start a
span under the global context (its returned context is discarded, so
the stored `ctx` is the zero value), record it keyed by the name.  The
two `time.Now()` calls of one invocation are modelled by the single
instant `now`.  `none` models the `parseName` panic. -/
def startSpanForLine (g : Ctx) (st : TState) (now : Int) (line : String) :
    Option TState :=
  match parseName? line with
  | none => none
  | some nm =>
      let (id, spans) := startSpan st.spans g nm now
      some { st with
        registry := insertSD st.registry nm
          { ctx := Ctx.nil, spanId := id, startTime := now },
        spans := spans }

/-- Go `parser.endSpanForLine` (parser.go): extract name and duration;
if the name has no entry, return silently; otherwise optionally mark
the error status and end the span at `startTime + duration`.  `none`
models the `parseNameAndDuration` panic. -/
def endSpanForLine (st : TState) (line : String) (errored : Bool) :
    Option TState :=
  match parseNameAndDuration? line with
  | none => none
  | some (nm, dur) =>
      match lookupSD st.registry nm with
      | none => some st
      | some d =>
          let spans1 := if errored then setError st.spans d.spanId else st.spans
          some { st with spans := endSpan spans1 d.spanId (d.startTime + dur) }

/-- The dispatch of Go `parser.parseLine` (parser.go) on the trimmed
line, without the deferred echo of the line itself.  `none` models a
panic inside the dispatched branch. -/
def parseLineCore (g : Ctx) (st : TState) (now : Int) (line : String) :
    Option TState :=
  let trimmed := goTrimSpace line
  if hasPfx "ok" trimmed = true then some st
  else if hasPfx "PASS" trimmed = true then some st
  else if hasPfx "FAIL" trimmed = true then some st
  else if containsStr trimmed "[no test files]" = true then some st
  else if hasPfx "--- SKIP" trimmed = true then some st
  else if hasPfx "=== RUN" trimmed = true then startSpanForLine g st now trimmed
  else if hasPfx "--- PASS" trimmed = true then endSpanForLine st trimmed false
  else if hasPfx "--- FAIL" trimmed = true then endSpanForLine st trimmed true
  else some st

/-- Go `parser.parse` (parser.go) over a finite list of timed lines.
The deferred `fmt.Printf("%s\n", line)` echoes every line, including a
line whose handling panics (the deferred call runs during unwinding);
after a panic no further line is processed. -/
def parseRun (g : Ctx) (st : TState) : List (Int × String) → TState
  | [] => st
  | (now, line) :: rest =>
      match parseLineCore g st now line with
      | none => { st with out := st.out ++ line ++ "\n" }
      | some st1 => parseRun g { st1 with out := st1.out ++ line ++ "\n" } rest

/-! ## Basic lemmas about the registry and the span store -/

theorem lookupSD_insertSD_self (reg : List (String × SpanData)) (key : String)
    (d : SpanData) : lookupSD (insertSD reg key d) key = some d := by
  induction reg with
  | nil => simp [insertSD, lookupSD]
  | cons p rest ih =>
      obtain ⟨k, d0⟩ := p
      by_cases hk : k = key
      · simp [insertSD, hk, lookupSD]
      · simp [insertSD, hk, lookupSD, ih]

theorem lookupSD_insertSD_ne (reg : List (String × SpanData)) (key k1 : String)
    (d : SpanData) (h : k1 ≠ key) :
    lookupSD (insertSD reg key d) k1 = lookupSD reg k1 := by
  have h2 : ¬(key = k1) := fun hh => h hh.symm
  induction reg with
  | nil => simp [insertSD, lookupSD, h2]
  | cons p rest ih =>
      obtain ⟨k, d0⟩ := p
      by_cases hk : k = key
      · subst hk
        simp [insertSD, lookupSD, h2]
      · simp only [insertSD, if_neg hk, lookupSD]
        by_cases hk1 : k = k1 <;> simp [hk1, ih]

theorem length_set_eq {α : Type} (l : List α) (i : Nat) (x : α) :
    (l.set i x).length = l.length := List.length_set l i x

theorem countP_set {α : Type} (p : α → Bool) (l : List α) (i : Nat) (s x : α)
    (h : l[i]? = some s) :
    (l.set i x).countP p + (if p s then 1 else 0)
      = l.countP p + (if p x then 1 else 0) := by
  induction l generalizing i with
  | nil => simp at h
  | cons a rest ih =>
      cases i with
      | zero =>
          simp only [List.getElem?_cons_zero, Option.some.injEq] at h
          subst h
          simp only [List.set_cons_zero, List.countP_cons]
          omega
      | succ n =>
          simp only [List.getElem?_cons_succ] at h
          simp only [List.set_cons_succ, List.countP_cons]
          have := ih n h
          omega

theorem countP_add_not {α : Type} (p : α → Bool) (l : List α) :
    l.countP p + l.countP (fun a => !(p a)) = l.length := by
  induction l with
  | nil => simp
  | cons a rest ih =>
      simp only [List.countP_cons]
      cases hpa : p a <;> simp [hpa] <;> omega

/-! ## Claim C1: parent resolution -/

theorem lastIdxSlash_lt (l : List Char) (i : Nat) (h : lastIdxSlash l = some i) :
    i < l.length := by
  induction l generalizing i with
  | nil => simp [lastIdxSlash] at h
  | cons c rest ih =>
      simp only [lastIdxSlash] at h
      cases hr : lastIdxSlash rest with
      | some j =>
          rw [hr] at h
          simp only [Option.some.injEq] at h
          subst h
          have := ih j hr
          simp only [List.length_cons]
          omega
      | none =>
          rw [hr] at h
          by_cases hc : c = '/'
          · simp only [if_pos hc, Option.some.injEq] at h
            subst h
            simp
          · simp [if_neg hc] at h

theorem parentContextLoop_eq_spec (reg : List (String × SpanData)) (pkg : String)
    (l : List Char) :
    ∀ (fuel untl : Nat),
      parentContextLoop reg pkg l untl fuel
        = ((specStripCandidates (l.take untl) fuel).findSome?
            (fun cand => (lookupSD reg (testKey pkg (String.mk cand))).map SpanData.ctx)) := by
  intro fuel
  induction fuel with
  | zero => intro untl; simp [parentContextLoop, specStripCandidates]
  | succ n ih =>
      intro untl
      simp only [parentContextLoop, specStripCandidates, stripRightSegment]
      cases hsl : lastIdxSlash (l.take untl) with
      | none => simp
      | some sep =>
          have hlt : sep < (l.take untl).length := lastIdxSlash_lt _ _ hsl
          have hle : sep ≤ untl := by
            simp only [List.length_take] at hlt
            omega
          have htt : (l.take untl).take sep = l.take sep := by
            rw [List.take_take, Nat.min_eq_left hle]
          simp only [htt, List.findSome?_cons]
          cases hlk : lookupSD reg (testKey pkg (String.mk (l.take sep))) with
          | some d => simp
          | none => simp [ih sep]

/-- Claim C1.  Parent resolution: `parentContext` (from the source)
coincides with the resolver described by the spec — first match among
the candidates obtained by progressively stripping the rightmost
`/`-segment, then the scope-level entry, then the global context — and
on the spec's concrete instance (registry entry `"pkgA.Foo"`, incoming
name `"Foo/Bar"` under scope `"pkgA"`) it returns that entry's context,
not the global root. -/
theorem claim1_parent_resolution :
    (∀ (reg : List (String × SpanData)) (ctx : Ctx) (pkg test : String),
        parentContext reg ctx pkg test = parentContextSpec reg ctx pkg test) ∧
    (∀ (d : SpanData),
        parentContext [("pkgA.Foo", d)] Ctx.global "pkgA" "Foo/Bar" = d.ctx) ∧
    parentContext [("pkgA.Foo", { ctx := Ctx.child 0, spanId := 0, startTime := 0 })]
        Ctx.global "pkgA" "Foo/Bar" ≠ Ctx.global := by
  refine ⟨?_, ?_, ?_⟩
  · intro reg ctx pkg test
    unfold parentContext parentContextSpec
    rw [parentContextLoop_eq_spec, List.take_length]
  · intro d
    simp [parentContext, parentContextLoop, lastIdxSlash, testKey, lookupSD]
  · decide

/-! ## Shape lemmas for one structured-mode iteration -/

theorem traceStep_start (g : Ctx) (st : TState) (e : Event)
    (h : e.action = "start") :
    traceStep g st e = some
      { registry := insertSD st.registry (testKey e.pkg e.test)
          { ctx := Ctx.child st.spans.length, spanId := st.spans.length,
            startTime := e.time },
        spans := st.spans ++ [{ name := e.pkg, parent := g, startTime := e.time,
                                status := SpanStatus.unset, endTime := none }],
        out := st.out ++ e.output } := by
  simp [traceStep, h, startSpan]

theorem traceStep_run (g : Ctx) (st : TState) (e : Event)
    (h : e.action = "run") :
    traceStep g st e = some
      { registry := insertSD st.registry (testKey e.pkg e.test)
          { ctx := Ctx.child st.spans.length, spanId := st.spans.length,
            startTime := e.time },
        spans := st.spans ++ [{ name := e.test,
                                parent := parentContext st.registry g e.pkg e.test,
                                startTime := e.time,
                                status := SpanStatus.unset, endTime := none }],
        out := st.out ++ e.output } := by
  simp [traceStep, h, startSpan]

theorem traceStep_term_found (g : Ctx) (st : TState) (e : Event) (d : SpanData)
    (h : e.action = "pass" ∨ e.action = "fail" ∨ e.action = "skip")
    (hlk : lookupSD st.registry (testKey e.pkg e.test) = some d) :
    traceStep g st e = some
      { st with
        spans := endSpan (if e.action = "fail" then setError st.spans d.spanId
                          else st.spans) d.spanId e.time,
        out := st.out ++ e.output } := by
  rcases h with h | h | h <;> simp [traceStep, h, hlk]

theorem traceStep_term_none (g : Ctx) (st : TState) (e : Event)
    (h : e.action = "pass" ∨ e.action = "fail" ∨ e.action = "skip")
    (hlk : lookupSD st.registry (testKey e.pkg e.test) = none) :
    traceStep g st e = none := by
  rcases h with h | h | h <;> simp [traceStep, h, hlk]

theorem traceStep_other (g : Ctx) (st : TState) (e : Event)
    (h1 : e.action ≠ "start") (h2 : e.action ≠ "run") (h3 : e.action ≠ "pass")
    (h4 : e.action ≠ "fail") (h5 : e.action ≠ "skip") :
    traceStep g st e = some { st with out := st.out ++ e.output } := by
  simp [traceStep, h1, h2, h3, h4, h5]

/-! ## Claim C6: process exit code -/

/-- Outcome of invoking the underlying `go test` subprocess: it exited
with the given status code, or it could not be started.  By `go test`'s
own contract (an external collaborator), its exit status is 0 exactly
when the invocation succeeded and no test failed. -/
inductive RunnerOutcome where
  | exited : Nat → RunnerOutcome
  | startFailed : RunnerOutcome
deriving DecidableEq, Repr

/-- `cmd.Run()` (main.go) returns a non-nil error exactly when the
subprocess could not be started or exited with a non-zero status;
`trace` returns that error unchanged. -/
def cmdRunFails : RunnerOutcome → Bool
  | RunnerOutcome.exited c => decide (c ≠ 0)
  | RunnerOutcome.startFailed => true

/-- `main` (main.go): `log.Fatal(err)` terminates the process with exit
status 1 when `trace` returned an error; otherwise the process exits
normally with status 0. -/
def processExitCode (r : RunnerOutcome) : Nat :=
  if cmdRunFails r then 1 else 0

/-- Claim C6.  The process exit code is non-zero exactly when the
runner invocation failed or the runner itself exited non-zero (i.e.
some test failed, by `go test`'s contract); otherwise — when the runner
exited 0 — the exit code equals the runner's status. -/
theorem claim6_exit_code :
    ∀ r : RunnerOutcome,
      (processExitCode r ≠ 0 ↔
        (r = RunnerOutcome.startFailed ∨
          ∃ c, r = RunnerOutcome.exited c ∧ c ≠ 0)) ∧
      (∀ c, r = RunnerOutcome.exited c → c = 0 → processExitCode r = c) := by
  intro r
  cases r with
  | exited c =>
      constructor
      · by_cases hc : c = 0 <;> simp [processExitCode, cmdRunFails, hc]
      · intro c1 h1 h2
        cases h1
        simp [processExitCode, cmdRunFails, h2]
  | startFailed => simp [processExitCode, cmdRunFails]

/-- Witness for C6 at the concrete outcomes `exited 0`, `exited 2` and
`startFailed`. -/
theorem claim6_exit_code_witness :
    processExitCode (RunnerOutcome.exited 0) = 0 ∧
    processExitCode (RunnerOutcome.exited 2) ≠ 0 ∧
    processExitCode RunnerOutcome.startFailed ≠ 0 := by
  refine ⟨(claim6_exit_code (RunnerOutcome.exited 0)).2 0 rfl rfl, ?_, ?_⟩
  · exact ((claim6_exit_code (RunnerOutcome.exited 2)).1).mpr
      (Or.inr ⟨2, rfl, by decide⟩)
  · exact ((claim6_exit_code RunnerOutcome.startFailed).1).mpr (Or.inl rfl)

/-! ## Claim C9: duration parsing on the test-suite literal -/

/-- Claim C9.  On the literal line from the repository's own test,
`parseNameAndDuration` yields the name `"TestGetConfig/otlp#01"` and
exactly 1.5 seconds (1500000000 nanoseconds). -/
theorem claim9_duration_literal :
    parseNameAndDuration? "    --- PASS: TestGetConfig/otlp#01 (1.50s)"
      = some ("TestGetConfig/otlp#01", 1500000000) := by
  decide

/-! ## Claim C10: the regex panic is reachable -/

/-- Claim C10.  `parseName` / `parseNameAndDuration` index the regex
match list unconditionally; on a line whose prefix selects the start or
terminal branch but that contains no `Test.+` match — e.g.
`"--- FAIL: Foo (0.10s)"` — the match list is empty, so the total
embedding returns `none` (the panic branch of `parseLine` is
reachable). -/
theorem claim10_regex_panic_reachable :
    parseName? "=== RUN   Foo" = none ∧
    hasPfx "=== RUN" (goTrimSpace "=== RUN   Foo") = true ∧
    parseLineCore Ctx.global initState 0 "=== RUN   Foo" = none ∧
    parseNameAndDuration? "--- FAIL: Foo (0.10s)" = none ∧
    hasPfx "--- FAIL" (goTrimSpace "--- FAIL: Foo (0.10s)") = true ∧
    parseLineCore Ctx.global initState 0 "--- FAIL: Foo (0.10s)" = none := by
  decide

/-! ## Prefix reasoning and branch-classification lemmas -/

theorem strPfx_iff (l1 : List Char) :
    ∀ l2, strPfx l1 l2 = true ↔ ∃ r, l2 = l1 ++ r := by
  induction l1 with
  | nil => intro l2; simp [strPfx]
  | cons p ps ih =>
      intro l2
      cases l2 with
      | nil => simp [strPfx]
      | cons c cs =>
          simp only [strPfx, Bool.and_eq_true, beq_iff_eq, ih cs]
          constructor
          · rintro ⟨rfl, r, rfl⟩
            exact ⟨r, rfl⟩
          · rintro ⟨r, hr⟩
            simp only [List.cons_append, List.cons.injEq] at hr
            exact ⟨hr.1.symm, r, hr.2⟩

theorem strPfx_take_pfx :
    ∀ (q p r : List Char), strPfx q (p ++ r) = true →
      strPfx (q.take p.length) p = true := by
  intro q
  induction q with
  | nil => intro p r _; cases p <;> simp [strPfx]
  | cons a qs ih =>
      intro p r h
      cases p with
      | nil => simp [strPfx]
      | cons b ps =>
          simp only [List.cons_append, strPfx, Bool.and_eq_true] at h
          simp only [List.length_cons, List.take_succ_cons, strPfx,
            Bool.and_eq_true]
          exact ⟨h.1, ih ps r h.2⟩

/-- If `p` is a prefix of `s` but `q` disagrees with `p` on the first
`p.length` characters, then `q` is not a prefix of `s`. -/
theorem hasPfx_excl (q p s : String) (hps : hasPfx p s = true)
    (hqp : strPfx (q.data.take p.data.length) p.data = false) :
    hasPfx q s = false := by
  cases hqs : hasPfx q s with
  | false => rfl
  | true =>
      exfalso
      obtain ⟨r, hr⟩ := (strPfx_iff p.data s.data).mp hps
      unfold hasPfx at hqs
      rw [hr] at hqs
      rw [strPfx_take_pfx q.data p.data r hqs] at hqp
      simp at hqp

theorem set_getElem?_self {α : Type} (l : List α) (i : Nat) (x : α)
    (h : l[i]? = some x) : l.set i x = l := by
  induction l generalizing i with
  | nil => simp at h
  | cons a rest ih =>
      cases i with
      | zero =>
          simp only [List.getElem?_cons_zero, Option.some.injEq] at h
          simp [h]
      | succ n =>
          simp only [List.getElem?_cons_succ] at h
          simp [ih n h]

theorem setError_open (spans : List Span) (id : Nat) (s : Span)
    (h : spans[id]? = some s) (hopen : s.endTime = none) :
    setError spans id = spans.set id { s with status := SpanStatus.error } := by
  simp [setError, h, hopen]

theorem endSpan_open (spans : List Span) (id : Nat) (ts : Int) (s : Span)
    (h : spans[id]? = some s) (hopen : s.endTime = none) :
    endSpan spans id ts = spans.set id { s with endTime := some ts } := by
  simp [endSpan, h, hopen]

theorem map_status_endSpan (spans : List Span) (id : Nat) (ts : Int) :
    (endSpan spans id ts).map Span.status = spans.map Span.status := by
  cases h : spans[id]? with
  | none => simp [endSpan, h]
  | some s =>
      cases he : s.endTime with
      | some t => simp [endSpan, h, he]
      | none =>
          rw [endSpan_open spans id ts s h he, List.map_set]
          exact set_getElem?_self _ _ _ (by rw [List.getElem?_map, h]; rfl)

/-! ## Shape lemmas for the unstructured parser -/

theorem startSpanForLine_found (g : Ctx) (st : TState) (now : Int)
    (line : String) (nm : String) (hpn : parseName? line = some nm) :
    startSpanForLine g st now line = some
      { st with
        registry := insertSD st.registry nm
          { ctx := Ctx.nil, spanId := st.spans.length, startTime := now },
        spans := st.spans ++ [{ name := nm, parent := g, startTime := now,
                                status := SpanStatus.unset, endTime := none }] } := by
  simp [startSpanForLine, hpn, startSpan]

theorem startSpanForLine_panic (g : Ctx) (st : TState) (now : Int)
    (line : String) (hpn : parseName? line = none) :
    startSpanForLine g st now line = none := by
  simp [startSpanForLine, hpn]

theorem endSpanForLine_found (st : TState) (line : String) (errored : Bool)
    (nm : String) (dur : Int) (d : SpanData)
    (hpd : parseNameAndDuration? line = some (nm, dur))
    (hlk : lookupSD st.registry nm = some d) :
    endSpanForLine st line errored = some
      { st with spans :=
          (endSpan (if errored then setError st.spans d.spanId else st.spans)
            d.spanId (d.startTime + dur)) } := by
  simp [endSpanForLine, hpd, hlk]

theorem endSpanForLine_orphan (st : TState) (line : String) (errored : Bool)
    (nm : String) (dur : Int)
    (hpd : parseNameAndDuration? line = some (nm, dur))
    (hlk : lookupSD st.registry nm = none) :
    endSpanForLine st line errored = some st := by
  simp [endSpanForLine, hpd, hlk]

theorem endSpanForLine_panic (st : TState) (line : String) (errored : Bool)
    (hpd : parseNameAndDuration? line = none) :
    endSpanForLine st line errored = none := by
  simp [endSpanForLine, hpd]

/-! ## Claim C2: fail marks error, pass/skip never do -/

/-- Claim C2.  A `fail` terminal event for a key with an open span sets
that span's status to error and ends it, in both modes; `pass`/`skip`
terminal events never change any span's status, in both modes (in the
unstructured mode, `--- PASS` lines call `endSpanForLine` without the
error flag, and `--- SKIP` lines do not touch the registry at all). -/
theorem claim2_fail_error_status :
    (∀ (g : Ctx) (st : TState) (e : Event) (d : SpanData) (s : Span),
        e.action = "fail" →
        lookupSD st.registry (testKey e.pkg e.test) = some d →
        st.spans[d.spanId]? = some s → s.endTime = none →
        ∃ st1, traceStep g st e = some st1 ∧
          st1.spans[d.spanId]?
            = some { s with status := SpanStatus.error, endTime := some e.time }) ∧
    (∀ (g : Ctx) (st : TState) (e : Event) (st1 : TState),
        e.action = "pass" ∨ e.action = "skip" →
        traceStep g st e = some st1 →
        st1.spans.map Span.status = st.spans.map Span.status) ∧
    (∀ (st : TState) (line : String) (d : SpanData) (s : Span)
        (nm : String) (dur : Int),
        parseNameAndDuration? line = some (nm, dur) →
        lookupSD st.registry nm = some d →
        st.spans[d.spanId]? = some s → s.endTime = none →
        ∃ st1, endSpanForLine st line true = some st1 ∧
          st1.spans[d.spanId]?
            = some { s with status := SpanStatus.error,
                            endTime := some (d.startTime + dur) }) ∧
    (∀ (st : TState) (line : String) (st1 : TState),
        endSpanForLine st line false = some st1 →
        st1.spans.map Span.status = st.spans.map Span.status) ∧
    (∀ (g : Ctx) (st : TState) (now : Int) (line : String),
        hasPfx "--- SKIP" (goTrimSpace line) = true →
        parseLineCore g st now line = some st) := by
  have hlt : ∀ (spans : List Span) (id : Nat) (s : Span),
      spans[id]? = some s → id < spans.length :=
    fun spans id s h => (List.getElem?_eq_some.mp h).1
  refine ⟨?_, ?_, ?_, ?_, ?_⟩
  · intro g st e d s hf hlk hsp hopen
    refine ⟨_, traceStep_term_found g st e d (Or.inr (Or.inl hf)) hlk, ?_⟩
    rw [show (if e.action = "fail" then setError st.spans d.spanId
          else st.spans) = setError st.spans d.spanId from if_pos hf]
    rw [setError_open st.spans d.spanId s hsp hopen]
    rw [endSpan_open _ d.spanId e.time { s with status := SpanStatus.error }
      (List.getElem?_set_self (hlt _ _ _ hsp)) hopen]
    rw [List.set_set]
    exact List.getElem?_set_self (hlt _ _ _ hsp)
  · intro g st e st1 hps hstep
    cases hlk : lookupSD st.registry (testKey e.pkg e.test) with
    | none =>
        rw [traceStep_term_none g st e (by tauto) hlk] at hstep
        exact absurd hstep (by simp)
    | some d =>
        rw [traceStep_term_found g st e d (by tauto) hlk] at hstep
        have hne : ¬(e.action = "fail") := by
          rcases hps with h | h <;> simp [h]
        simp only [if_neg hne, Option.some.injEq] at hstep
        subst hstep
        exact map_status_endSpan st.spans d.spanId e.time
  · intro st line d s nm dur hpd hlk hsp hopen
    refine ⟨_, endSpanForLine_found st line true nm dur d hpd hlk, ?_⟩
    rw [show (if true then setError st.spans d.spanId else st.spans)
          = setError st.spans d.spanId from rfl]
    rw [setError_open st.spans d.spanId s hsp hopen]
    rw [endSpan_open _ d.spanId (d.startTime + dur)
      { s with status := SpanStatus.error }
      (List.getElem?_set_self (hlt _ _ _ hsp)) hopen]
    rw [List.set_set]
    exact List.getElem?_set_self (hlt _ _ _ hsp)
  · intro st line st1 hstep
    cases hpd : parseNameAndDuration? line with
    | none =>
        rw [endSpanForLine_panic st line false hpd] at hstep
        exact absurd hstep (by simp)
    | some p =>
        obtain ⟨nm, dur⟩ := p
        cases hlk : lookupSD st.registry nm with
        | none =>
            rw [endSpanForLine_orphan st line false nm dur hpd hlk] at hstep
            simp only [Option.some.injEq] at hstep
            rw [← hstep]
        | some d =>
            rw [endSpanForLine_found st line false nm dur d hpd hlk] at hstep
            simp only [Bool.false_eq_true, if_false, Option.some.injEq] at hstep
            subst hstep
            exact map_status_endSpan st.spans d.spanId (d.startTime + dur)
  · intro g st now line hskip
    have h1 : hasPfx "ok" (goTrimSpace line) = false :=
      hasPfx_excl _ _ _ hskip (by decide)
    have h2 : hasPfx "PASS" (goTrimSpace line) = false :=
      hasPfx_excl _ _ _ hskip (by decide)
    have h3 : hasPfx "FAIL" (goTrimSpace line) = false :=
      hasPfx_excl _ _ _ hskip (by decide)
    cases h4 : containsStr (goTrimSpace line) "[no test files]" <;>
      simp [parseLineCore, h1, h2, h3, h4, hskip]

/-- Witness for C2: a concrete open span marked failed in structured
mode, a pass event leaving statuses alone, and the unstructured
variants on concrete lines. -/
theorem claim2_fail_error_status_witness :
    (∃ st1, traceStep Ctx.global
        { registry := [("p.T", { ctx := Ctx.child 0, spanId := 0, startTime := 5 })],
          spans := [{ name := "T", parent := Ctx.global, startTime := 5,
                      status := SpanStatus.unset, endTime := none }],
          out := "" }
        { time := 9, action := "fail", pkg := "p", test := "T", output := "x" }
        = some st1 ∧
      st1.spans[0]? = some { name := "T", parent := Ctx.global, startTime := 5,
                             status := SpanStatus.error, endTime := some 9 }) ∧
    (∃ st1, endSpanForLine
        { registry := [("TestA", { ctx := Ctx.nil, spanId := 0, startTime := 5 })],
          spans := [{ name := "TestA", parent := Ctx.global, startTime := 5,
                      status := SpanStatus.unset, endTime := none }],
          out := "" } "--- FAIL: TestA (1.50s)" true = some st1 ∧
      st1.spans[0]? = some { name := "TestA", parent := Ctx.global, startTime := 5,
                             status := SpanStatus.error,
                             endTime := some (5 + 1500000000) }) := by
  constructor
  · exact claim2_fail_error_status.1 Ctx.global
      { registry := [("p.T", { ctx := Ctx.child 0, spanId := 0, startTime := 5 })],
        spans := [{ name := "T", parent := Ctx.global, startTime := 5,
                    status := SpanStatus.unset, endTime := none }],
        out := "" }
      { time := 9, action := "fail", pkg := "p", test := "T", output := "x" }
      { ctx := Ctx.child 0, spanId := 0, startTime := 5 }
      { name := "T", parent := Ctx.global, startTime := 5,
        status := SpanStatus.unset, endTime := none }
      rfl (by decide) (by decide) rfl
  · exact claim2_fail_error_status.2.2.1
      { registry := [("TestA", { ctx := Ctx.nil, spanId := 0, startTime := 5 })],
        spans := [{ name := "TestA", parent := Ctx.global, startTime := 5,
                    status := SpanStatus.unset, endTime := none }],
        out := "" }
      "--- FAIL: TestA (1.50s)"
      { ctx := Ctx.nil, spanId := 0, startTime := 5 }
      { name := "TestA", parent := Ctx.global, startTime := 5,
        status := SpanStatus.unset, endTime := none }
      "TestA" 1500000000
      (by decide) (by decide) (by decide) rfl

/-! ## Claim C7: end timestamps of closed spans -/

theorem endSpan_after_maybe_error (spans : List Span) (id : Nat) (ts : Int)
    (s : Span) (h : spans[id]? = some s) (hopen : s.endTime = none)
    (spans1 : List Span)
    (hb : spans1 = setError spans id ∨ spans1 = spans) :
    ∃ s1, (endSpan spans1 id ts)[id]? = some s1 ∧ s1.endTime = some ts := by
  have hlt : id < spans.length := (List.getElem?_eq_some.mp h).1
  rcases hb with hb | hb
  · subst hb
    rw [setError_open spans id s h hopen]
    rw [endSpan_open _ id ts { s with status := SpanStatus.error }
      (List.getElem?_set_self hlt) hopen]
    rw [List.set_set]
    exact ⟨_, List.getElem?_set_self hlt, rfl⟩
  · subst hb
    rw [endSpan_open _ id ts s h hopen]
    exact ⟨_, List.getElem?_set_self hlt, rfl⟩

/-- Claim C7.  When a terminal event closes an open span, the end
timestamp is the event's own timestamp in structured mode, and the
recorded start time plus the duration parsed from the line's trailing
parenthesized duration in unstructured mode. -/
theorem claim7_end_timestamp :
    (∀ (g : Ctx) (st : TState) (e : Event) (d : SpanData) (s : Span),
        e.action = "pass" ∨ e.action = "fail" ∨ e.action = "skip" →
        lookupSD st.registry (testKey e.pkg e.test) = some d →
        st.spans[d.spanId]? = some s → s.endTime = none →
        ∃ st1 s1, traceStep g st e = some st1 ∧
          st1.spans[d.spanId]? = some s1 ∧ s1.endTime = some e.time) ∧
    (∀ (st : TState) (line : String) (errored : Bool) (nm : String)
        (dur : Int) (d : SpanData) (s : Span),
        parseNameAndDuration? line = some (nm, dur) →
        lookupSD st.registry nm = some d →
        st.spans[d.spanId]? = some s → s.endTime = none →
        ∃ st1 s1, endSpanForLine st line errored = some st1 ∧
          st1.spans[d.spanId]? = some s1 ∧
          s1.endTime = some (d.startTime + dur)) := by
  constructor
  · intro g st e d s hterm hlk hsp hopen
    have hb : (if e.action = "fail" then setError st.spans d.spanId
          else st.spans) = setError st.spans d.spanId ∨
        (if e.action = "fail" then setError st.spans d.spanId
          else st.spans) = st.spans := by
      by_cases hf : e.action = "fail"
      · exact Or.inl (if_pos hf)
      · exact Or.inr (if_neg hf)
    obtain ⟨s1, hs1, he1⟩ :=
      endSpan_after_maybe_error st.spans d.spanId e.time s hsp hopen _ hb
    exact ⟨_, s1, traceStep_term_found g st e d hterm hlk, hs1, he1⟩
  · intro st line errored nm dur d s hpd hlk hsp hopen
    have hb : (if errored then setError st.spans d.spanId else st.spans)
          = setError st.spans d.spanId ∨
        (if errored then setError st.spans d.spanId else st.spans)
          = st.spans := by
      cases errored
      · exact Or.inr (if_neg (by simp))
      · exact Or.inl (if_pos rfl)
    obtain ⟨s1, hs1, he1⟩ :=
      endSpan_after_maybe_error st.spans d.spanId (d.startTime + dur) s hsp hopen _ hb
    exact ⟨_, s1, endSpanForLine_found st line errored nm dur d hpd hlk, hs1, he1⟩

/-- Witness for C7: a structured `pass` event at time 9 closing a span
opened at 5, and an unstructured `--- PASS` line closing a span whose
record started at 5 with a parsed duration of 1.5s. -/
theorem claim7_end_timestamp_witness :
    (∃ st1 s1, traceStep Ctx.global
        { registry := [("p.T", { ctx := Ctx.child 0, spanId := 0, startTime := 5 })],
          spans := [{ name := "T", parent := Ctx.global, startTime := 5,
                      status := SpanStatus.unset, endTime := none }],
          out := "" }
        { time := 9, action := "pass", pkg := "p", test := "T", output := "x" }
        = some st1 ∧
      st1.spans[0]? = some s1 ∧ s1.endTime = some 9) ∧
    (∃ st1 s1, endSpanForLine
        { registry := [("TestA", { ctx := Ctx.nil, spanId := 0, startTime := 5 })],
          spans := [{ name := "TestA", parent := Ctx.global, startTime := 5,
                      status := SpanStatus.unset, endTime := none }],
          out := "" } "--- PASS: TestA (1.50s)" false = some st1 ∧
      st1.spans[0]? = some s1 ∧ s1.endTime = some (5 + 1500000000)) := by
  constructor
  · exact claim7_end_timestamp.1 Ctx.global
      { registry := [("p.T", { ctx := Ctx.child 0, spanId := 0, startTime := 5 })],
        spans := [{ name := "T", parent := Ctx.global, startTime := 5,
                    status := SpanStatus.unset, endTime := none }],
        out := "" }
      { time := 9, action := "pass", pkg := "p", test := "T", output := "x" }
      { ctx := Ctx.child 0, spanId := 0, startTime := 5 }
      { name := "T", parent := Ctx.global, startTime := 5,
        status := SpanStatus.unset, endTime := none }
      (Or.inl rfl) (by decide) (by decide) rfl
  · exact claim7_end_timestamp.2
      { registry := [("TestA", { ctx := Ctx.nil, spanId := 0, startTime := 5 })],
        spans := [{ name := "TestA", parent := Ctx.global, startTime := 5,
                    status := SpanStatus.unset, endTime := none }],
        out := "" }
      "--- PASS: TestA (1.50s)" false "TestA" 1500000000
      { ctx := Ctx.nil, spanId := 0, startTime := 5 }
      { name := "TestA", parent := Ctx.global, startTime := 5,
        status := SpanStatus.unset, endTime := none }
      (by decide) (by decide) (by decide) rfl

/-! ## Branch classification for `parseLine` -/

theorem parseLineCore_runBranch (g : Ctx) (st : TState) (now : Int) (line : String)
    (h : hasPfx "=== RUN" (goTrimSpace line) = true)
    (hn : containsStr (goTrimSpace line) "[no test files]" = false) :
    parseLineCore g st now line = startSpanForLine g st now (goTrimSpace line) := by
  have h1 := hasPfx_excl "ok" _ _ h (by decide)
  have h2 := hasPfx_excl "PASS" _ _ h (by decide)
  have h3 := hasPfx_excl "FAIL" _ _ h (by decide)
  have h5 := hasPfx_excl "--- SKIP" _ _ h (by decide)
  simp [parseLineCore, h1, h2, h3, hn, h5, h]

theorem parseLineCore_passBranch (g : Ctx) (st : TState) (now : Int) (line : String)
    (h : hasPfx "--- PASS" (goTrimSpace line) = true)
    (hn : containsStr (goTrimSpace line) "[no test files]" = false) :
    parseLineCore g st now line = endSpanForLine st (goTrimSpace line) false := by
  have h1 := hasPfx_excl "ok" _ _ h (by decide)
  have h2 := hasPfx_excl "PASS" _ _ h (by decide)
  have h3 := hasPfx_excl "FAIL" _ _ h (by decide)
  have h5 := hasPfx_excl "--- SKIP" _ _ h (by decide)
  have h6 := hasPfx_excl "=== RUN" _ _ h (by decide)
  simp [parseLineCore, h1, h2, h3, hn, h5, h6, h]

theorem parseLineCore_failBranch (g : Ctx) (st : TState) (now : Int) (line : String)
    (h : hasPfx "--- FAIL" (goTrimSpace line) = true)
    (hn : containsStr (goTrimSpace line) "[no test files]" = false) :
    parseLineCore g st now line = endSpanForLine st (goTrimSpace line) true := by
  have h1 := hasPfx_excl "ok" _ _ h (by decide)
  have h2 := hasPfx_excl "PASS" _ _ h (by decide)
  have h3 := hasPfx_excl "FAIL" _ _ h (by decide)
  have h5 := hasPfx_excl "--- SKIP" _ _ h (by decide)
  have h6 := hasPfx_excl "=== RUN" _ _ h (by decide)
  have h7 := hasPfx_excl "--- PASS" _ _ h (by decide)
  simp [parseLineCore, h1, h2, h3, hn, h5, h6, h7, h]

theorem parseRun_cons_some (g : Ctx) (st st1 : TState) (now : Int)
    (line : String) (rest : List (Int × String))
    (h : parseLineCore g st now line = some st1) :
    parseRun g st ((now, line) :: rest)
      = parseRun g { st1 with out := st1.out ++ line ++ "\n" } rest := by
  simp [parseRun, h]

/-! ## Claim C3: orphan terminal events -/

/-- Counterexample to C3 as stated: in structured mode an orphan
terminal event does leave the registry and span store untouched, but it
makes the consuming goroutine `return`, so the subsequent `start` event
is never processed (the same suffix alone would have opened a span). -/
theorem claim3_counterexample :
    traceRun Ctx.global initState
      [{ time := 1, action := "pass", pkg := "p", test := "Ghost", output := "a" },
       { time := 2, action := "start", pkg := "q", test := "", output := "b" }]
      = initState ∧
    traceRun Ctx.global initState
      [{ time := 2, action := "start", pkg := "q", test := "", output := "b" }]
      ≠ initState := by
  decide

/-- Claim C3 (amended).  A terminal event whose key has no open span
mutates no span and raises no error in either mode; in the unstructured
mode the line is skipped and processing continues with the next line,
but in the structured mode the consuming goroutine returns, halting
processing of the remaining events. -/
theorem claim3_orphan_terminal :
    (∀ (g : Ctx) (st : TState) (e : Event) (es : List Event),
        e.action = "pass" ∨ e.action = "fail" ∨ e.action = "skip" →
        lookupSD st.registry (testKey e.pkg e.test) = none →
        traceStep g st e = none ∧ traceRun g st (e :: es) = st) ∧
    (∀ (g : Ctx) (st : TState) (now : Int) (line : String)
        (rest : List (Int × String)) (nm : String) (dur : Int),
        hasPfx "--- PASS" (goTrimSpace line) = true →
        containsStr (goTrimSpace line) "[no test files]" = false →
        parseNameAndDuration? (goTrimSpace line) = some (nm, dur) →
        lookupSD st.registry nm = none →
        parseLineCore g st now line = some st ∧
        parseRun g st ((now, line) :: rest)
          = parseRun g { st with out := st.out ++ line ++ "\n" } rest) ∧
    (∀ (g : Ctx) (st : TState) (now : Int) (line : String)
        (rest : List (Int × String)) (nm : String) (dur : Int),
        hasPfx "--- FAIL" (goTrimSpace line) = true →
        containsStr (goTrimSpace line) "[no test files]" = false →
        parseNameAndDuration? (goTrimSpace line) = some (nm, dur) →
        lookupSD st.registry nm = none →
        parseLineCore g st now line = some st ∧
        parseRun g st ((now, line) :: rest)
          = parseRun g { st with out := st.out ++ line ++ "\n" } rest) := by
  refine ⟨?_, ?_, ?_⟩
  · intro g st e es hterm hlk
    have hnone := traceStep_term_none g st e hterm hlk
    exact ⟨hnone, by simp [traceRun, hnone]⟩
  · intro g st now line rest nm dur h hn hpd hlk
    have hc : parseLineCore g st now line = some st := by
      rw [parseLineCore_passBranch g st now line h hn]
      exact endSpanForLine_orphan st _ false nm dur hpd hlk
    exact ⟨hc, parseRun_cons_some g st st now line rest hc⟩
  · intro g st now line rest nm dur h hn hpd hlk
    have hc : parseLineCore g st now line = some st := by
      rw [parseLineCore_failBranch g st now line h hn]
      exact endSpanForLine_orphan st _ true nm dur hpd hlk
    exact ⟨hc, parseRun_cons_some g st st now line rest hc⟩

/-- Witness for C3 (amended) at concrete inputs: a structured orphan
`pass` event halting the run, and an unstructured orphan `--- PASS`
line being skipped with processing continuing. -/
theorem claim3_orphan_terminal_witness :
    (traceStep Ctx.global initState
        { time := 1, action := "pass", pkg := "p", test := "Ghost", output := "a" }
        = none ∧
      traceRun Ctx.global initState
        [{ time := 1, action := "pass", pkg := "p", test := "Ghost", output := "a" }]
        = initState) ∧
    (parseLineCore Ctx.global initState 0 "--- PASS: TestGhost (0.10s)"
        = some initState ∧
      parseRun Ctx.global initState
        [(0, "--- PASS: TestGhost (0.10s)")]
        = parseRun Ctx.global
            { initState with out := initState.out ++ "--- PASS: TestGhost (0.10s)" ++ "\n" }
            []) := by
  constructor
  · exact claim3_orphan_terminal.1 Ctx.global initState
      { time := 1, action := "pass", pkg := "p", test := "Ghost", output := "a" }
      [] (Or.inl rfl) (by decide)
  · exact claim3_orphan_terminal.2.1 Ctx.global initState 0
      "--- PASS: TestGhost (0.10s)" [] "TestGhost" 100000000
      (by decide) (by decide) (by decide) (by decide)

/-! ## Spans not referenced by the registry are never mutated -/

theorem length_setError (spans : List Span) (j : Nat) :
    (setError spans j).length = spans.length := by
  cases h : spans[j]? with
  | none => simp [setError, h]
  | some s =>
      cases he : s.endTime with
      | some t => simp [setError, h, he]
      | none => simp [setError, h, he]

theorem length_endSpan (spans : List Span) (j : Nat) (ts : Int) :
    (endSpan spans j ts).length = spans.length := by
  cases h : spans[j]? with
  | none => simp [endSpan, h]
  | some s =>
      cases he : s.endTime with
      | some t => simp [endSpan, h, he]
      | none => simp [endSpan, h, he]

theorem getElem?_setError_ne (spans : List Span) (j i : Nat) (h : j ≠ i) :
    (setError spans j)[i]? = spans[i]? := by
  cases hj : spans[j]? with
  | none => simp [setError, hj]
  | some s =>
      cases he : s.endTime with
      | some t => simp [setError, hj, he]
      | none =>
          rw [setError_open spans j s hj he]
          exact List.getElem?_set_ne h

theorem getElem?_endSpan_ne (spans : List Span) (j : Nat) (ts : Int) (i : Nat)
    (h : j ≠ i) : (endSpan spans j ts)[i]? = spans[i]? := by
  cases hj : spans[j]? with
  | none => simp [endSpan, hj]
  | some s =>
      cases he : s.endTime with
      | some t => simp [endSpan, hj, he]
      | none =>
          rw [endSpan_open spans j ts s hj he]
          exact List.getElem?_set_ne h

/-- In structured mode, a span that no registry entry references is
never mutated again: no later event can end (or otherwise change) it. -/
theorem traceRun_untouched (g : Ctx) (id : Nat) :
    ∀ (es : List Event) (st : TState),
      id < st.spans.length →
      (∀ k d, lookupSD st.registry k = some d → d.spanId ≠ id) →
      (traceRun g st es).spans[id]? = st.spans[id]? := by
  intro es
  induction es with
  | nil => intro st _ _; rfl
  | cons e rest ih =>
      intro st hid href
      have hstartlike : ∀ parent nm,
          (traceRun g { st with
              registry := insertSD st.registry (testKey e.pkg e.test)
                { ctx := Ctx.child st.spans.length, spanId := st.spans.length,
                  startTime := e.time },
              spans := st.spans ++
                [{ name := nm, parent := parent, startTime := e.time,
                   status := SpanStatus.unset, endTime := none }],
              out := st.out ++ e.output } rest).spans[id]?
            = st.spans[id]? := by
        intro parent nm
        rw [ih _ (by simp; omega) ?_]
        · exact List.getElem?_append_left hid
        · intro k d hlk
          by_cases hk : k = testKey e.pkg e.test
          · subst hk
            rw [lookupSD_insertSD_self] at hlk
            cases hlk
            simp
            omega
          · exact href k d (by rwa [lookupSD_insertSD_ne _ _ _ _ hk] at hlk)
      by_cases hs : e.action = "start"
      · rw [show traceRun g st (e :: rest)
              = traceRun g _ rest from by rw [traceRun, traceStep_start g st e hs]]
        exact hstartlike g e.pkg
      by_cases hr : e.action = "run"
      · rw [show traceRun g st (e :: rest)
              = traceRun g _ rest from by rw [traceRun, traceStep_run g st e hr]]
        exact hstartlike (parentContext st.registry g e.pkg e.test) e.test
      by_cases ht : e.action = "pass" ∨ e.action = "fail" ∨ e.action = "skip"
      · cases hlk : lookupSD st.registry (testKey e.pkg e.test) with
        | none =>
            rw [show traceRun g st (e :: rest) = st from by
              rw [traceRun, traceStep_term_none g st e ht hlk]]
        | some d =>
            have hd : d.spanId ≠ id := href _ d hlk
            rw [show traceRun g st (e :: rest)
                = traceRun g { st with
                    spans := endSpan (if e.action = "fail" then setError st.spans d.spanId
                      else st.spans) d.spanId e.time,
                    out := st.out ++ e.output } rest from by
              rw [traceRun, traceStep_term_found g st e d ht hlk]]
            have hsp1 : (endSpan (if e.action = "fail" then setError st.spans d.spanId
                else st.spans) d.spanId e.time)[id]? = st.spans[id]? := by
              rw [getElem?_endSpan_ne _ _ _ _ hd]
              by_cases hf : e.action = "fail"
              · rw [if_pos hf, getElem?_setError_ne _ _ _ hd]
              · rw [if_neg hf]
            have hlen : id < (endSpan (if e.action = "fail" then setError st.spans d.spanId
                else st.spans) d.spanId e.time).length := by
              rw [length_endSpan]
              by_cases hf : e.action = "fail"
              · rw [if_pos hf, length_setError]; exact hid
              · rw [if_neg hf]; exact hid
            rw [ih { st with spans := endSpan (if e.action = "fail" then setError st.spans d.spanId else st.spans) d.spanId e.time, out := st.out ++ e.output } hlen href]
            exact hsp1
      · push_neg at ht
        rw [show traceRun g st (e :: rest)
            = traceRun g { st with out := st.out ++ e.output } rest from by
          rw [traceRun, traceStep_other g st e hs hr ht.1 ht.2.1 ht.2.2]]
        exact ih _ hid href

/-- Exhaustive description of a successful `parseLine` step: either the
state is unchanged, or a span was started, or a span was (possibly)
ended through the registry entry found for the extracted name. -/
theorem parseLineCore_cases (g : Ctx) (st : TState) (now : Int) (line : String)
    (st1 : TState) (h : parseLineCore g st now line = some st1) :
    st1 = st ∨
    (∃ nm, parseName? (goTrimSpace line) = some nm ∧
      st1 = { st with
        registry := insertSD st.registry nm
          { ctx := Ctx.nil, spanId := st.spans.length, startTime := now },
        spans := st.spans ++
          [{ name := nm, parent := g, startTime := now,
             status := SpanStatus.unset, endTime := none }] }) ∨
    (∃ (nm : String) (dur : Int) (d : SpanData) (er : Bool),
      parseNameAndDuration? (goTrimSpace line) = some (nm, dur) ∧
      lookupSD st.registry nm = some d ∧
      st1 = { st with spans :=
        (endSpan (if er then setError st.spans d.spanId else st.spans)
          d.spanId (d.startTime + dur)) }) := by
  by_cases c1 : hasPfx "ok" (goTrimSpace line) = true
  · rw [show parseLineCore g st now line = some st from by
      simp [parseLineCore, c1]] at h
    left; exact (Option.some_inj.mp h).symm
  by_cases c2 : hasPfx "PASS" (goTrimSpace line) = true
  · rw [show parseLineCore g st now line = some st from by
      simp [parseLineCore, c1, c2]] at h
    left; exact (Option.some_inj.mp h).symm
  by_cases c3 : hasPfx "FAIL" (goTrimSpace line) = true
  · rw [show parseLineCore g st now line = some st from by
      simp [parseLineCore, c1, c2, c3]] at h
    left; exact (Option.some_inj.mp h).symm
  by_cases c4 : containsStr (goTrimSpace line) "[no test files]" = true
  · rw [show parseLineCore g st now line = some st from by
      simp [parseLineCore, c1, c2, c3, c4]] at h
    left; exact (Option.some_inj.mp h).symm
  by_cases c5 : hasPfx "--- SKIP" (goTrimSpace line) = true
  · rw [show parseLineCore g st now line = some st from by
      simp [parseLineCore, c1, c2, c3, c4, c5]] at h
    left; exact (Option.some_inj.mp h).symm
  by_cases c6 : hasPfx "=== RUN" (goTrimSpace line) = true
  · rw [show parseLineCore g st now line
        = startSpanForLine g st now (goTrimSpace line) from by
      simp [parseLineCore, c1, c2, c3, c4, c5, c6]] at h
    cases hpn : parseName? (goTrimSpace line) with
    | none => rw [startSpanForLine_panic _ _ _ _ hpn] at h; simp at h
    | some nm =>
        rw [startSpanForLine_found _ _ _ _ nm hpn] at h
        simp only [Option.some.injEq] at h
        exact Or.inr (Or.inl ⟨nm, rfl, h.symm⟩)
  by_cases c7 : hasPfx "--- PASS" (goTrimSpace line) = true
  · rw [show parseLineCore g st now line
        = endSpanForLine st (goTrimSpace line) false from by
      simp [parseLineCore, c1, c2, c3, c4, c5, c6, c7]] at h
    cases hpd : parseNameAndDuration? (goTrimSpace line) with
    | none => rw [endSpanForLine_panic _ _ _ hpd] at h; simp at h
    | some p =>
        obtain ⟨nm, dur⟩ := p
        cases hlk : lookupSD st.registry nm with
        | none =>
            rw [endSpanForLine_orphan _ _ _ nm dur hpd hlk] at h
            left; exact (Option.some_inj.mp h).symm
        | some d =>
            rw [endSpanForLine_found _ _ _ nm dur d hpd hlk] at h
            simp only [Option.some.injEq] at h
            exact Or.inr (Or.inr ⟨nm, dur, d, false, rfl, hlk, h.symm⟩)
  by_cases c8 : hasPfx "--- FAIL" (goTrimSpace line) = true
  · rw [show parseLineCore g st now line
        = endSpanForLine st (goTrimSpace line) true from by
      simp [parseLineCore, c1, c2, c3, c4, c5, c6, c7, c8]] at h
    cases hpd : parseNameAndDuration? (goTrimSpace line) with
    | none => rw [endSpanForLine_panic _ _ _ hpd] at h; simp at h
    | some p =>
        obtain ⟨nm, dur⟩ := p
        cases hlk : lookupSD st.registry nm with
        | none =>
            rw [endSpanForLine_orphan _ _ _ nm dur hpd hlk] at h
            left; exact (Option.some_inj.mp h).symm
        | some d =>
            rw [endSpanForLine_found _ _ _ nm dur d hpd hlk] at h
            simp only [Option.some.injEq] at h
            exact Or.inr (Or.inr ⟨nm, dur, d, true, rfl, hlk, h.symm⟩)
  · rw [show parseLineCore g st now line = some st from by
      simp [parseLineCore, c1, c2, c3, c4, c5, c6, c7, c8]] at h
    left; exact (Option.some_inj.mp h).symm

/-- In unstructured mode, a span that no registry entry references is
never mutated again. -/
theorem parseRun_untouched (g : Ctx) (id : Nat) :
    ∀ (ls : List (Int × String)) (st : TState),
      id < st.spans.length →
      (∀ k d, lookupSD st.registry k = some d → d.spanId ≠ id) →
      (parseRun g st ls).spans[id]? = st.spans[id]? := by
  intro ls
  induction ls with
  | nil => intro st _ _; rfl
  | cons p rest ih =>
      obtain ⟨now, line⟩ := p
      intro st hid href
      cases hc : parseLineCore g st now line with
      | none => simp [parseRun, hc]
      | some st1 =>
          rw [parseRun_cons_some g st st1 now line rest hc]
          rcases parseLineCore_cases g st now line st1 hc with h | ⟨nm, hpn, h⟩ |
            ⟨nm, dur, d, er, hpd, hlk, h⟩
          · subst h
            exact ih _ hid href
          · subst h
            rw [ih _ (by simp; omega) ?_]
            · exact List.getElem?_append_left hid
            · intro k d hlk
              by_cases hk : k = nm
              · subst hk
                rw [lookupSD_insertSD_self] at hlk
                cases hlk
                simp
                omega
              · exact href k d (by rwa [lookupSD_insertSD_ne _ _ _ _ hk] at hlk)
          · subst h
            have hd : d.spanId ≠ id := href _ d hlk
            have hsp1 : (endSpan (if er then setError st.spans d.spanId else st.spans)
                d.spanId (d.startTime + dur))[id]? = st.spans[id]? := by
              rw [getElem?_endSpan_ne _ _ _ _ hd]
              cases er
              · rw [if_neg (by simp)]
              · rw [if_pos rfl, getElem?_setError_ne _ _ _ hd]
            have hlen : id < (endSpan (if er then setError st.spans d.spanId
                else st.spans) d.spanId (d.startTime + dur)).length := by
              rw [length_endSpan]
              cases er
              · rw [if_neg (by simp)]; exact hid
              · rw [if_pos rfl, length_setError]; exact hid
            rw [ih { st with spans := endSpan (if er then setError st.spans d.spanId else st.spans) d.spanId (d.startTime + dur), out := st.out ++ line ++ "\n" } hlen href]
            exact hsp1

/-! ## Claim C8: duplicate start overwrites, the old span is abandoned -/

/-- Claim C8.  A start/run event (or `=== RUN` line) whose key already
has a registry entry overwrites that entry with a fresh record and
raises no error; the previous record's span is untouched by the
overwriting step, and — since no registry entry references it any
more — no later event of the run can ever end it (conjuncts 3 and 4,
which hold for every span that the registry no longer references). -/
theorem claim8_duplicate_start :
    (∀ (g : Ctx) (st : TState) (e : Event) (dOld : SpanData) (sOld : Span),
        e.action = "start" ∨ e.action = "run" →
        lookupSD st.registry (testKey e.pkg e.test) = some dOld →
        st.spans[dOld.spanId]? = some sOld →
        ∃ st1, traceStep g st e = some st1 ∧
          lookupSD st1.registry (testKey e.pkg e.test)
            = some { ctx := Ctx.child st.spans.length,
                     spanId := st.spans.length, startTime := e.time } ∧
          dOld.spanId ≠ st.spans.length ∧
          st1.spans[dOld.spanId]? = some sOld) ∧
    (∀ (g : Ctx) (st : TState) (now : Int) (line : String)
        (nm : String) (dOld : SpanData) (sOld : Span),
        parseName? line = some nm →
        lookupSD st.registry nm = some dOld →
        st.spans[dOld.spanId]? = some sOld →
        ∃ st1, startSpanForLine g st now line = some st1 ∧
          lookupSD st1.registry nm
            = some { ctx := Ctx.nil, spanId := st.spans.length,
                     startTime := now } ∧
          dOld.spanId ≠ st.spans.length ∧
          st1.spans[dOld.spanId]? = some sOld) ∧
    (∀ (g : Ctx) (id : Nat) (es : List Event) (st : TState),
        id < st.spans.length →
        (∀ k d, lookupSD st.registry k = some d → d.spanId ≠ id) →
        (traceRun g st es).spans[id]? = st.spans[id]?) ∧
    (∀ (g : Ctx) (id : Nat) (ls : List (Int × String)) (st : TState),
        id < st.spans.length →
        (∀ k d, lookupSD st.registry k = some d → d.spanId ≠ id) →
        (parseRun g st ls).spans[id]? = st.spans[id]?) := by
  refine ⟨?_, ?_, ?_, ?_⟩
  · intro g st e dOld sOld hsr hlk hsp
    have hlt : dOld.spanId < st.spans.length := (List.getElem?_eq_some.mp hsp).1
    rcases hsr with hs | hs
    · refine ⟨_, traceStep_start g st e hs, ?_, ?_, ?_⟩
      · exact lookupSD_insertSD_self _ _ _
      · omega
      · exact (List.getElem?_append_left hlt).trans hsp
    · refine ⟨_, traceStep_run g st e hs, ?_, ?_, ?_⟩
      · exact lookupSD_insertSD_self _ _ _
      · omega
      · exact (List.getElem?_append_left hlt).trans hsp
  · intro g st now line nm dOld sOld hpn hlk hsp
    have hlt : dOld.spanId < st.spans.length := (List.getElem?_eq_some.mp hsp).1
    refine ⟨_, startSpanForLine_found g st now line nm hpn, ?_, ?_, ?_⟩
    · exact lookupSD_insertSD_self _ _ _
    · omega
    · exact (List.getElem?_append_left hlt).trans hsp
  · exact fun g id es st h1 h2 => traceRun_untouched g id es st h1 h2
  · exact fun g id ls st h1 h2 => parseRun_untouched g id ls st h1 h2

/-- Witness for C8: a concrete duplicate `run` event and a concrete
duplicate `=== RUN` line, each overwriting an existing open record. -/
theorem claim8_duplicate_start_witness :
    (∃ st1, traceStep Ctx.global
        { registry := [("p.T", { ctx := Ctx.child 0, spanId := 0, startTime := 1 })],
          spans := [{ name := "T", parent := Ctx.global, startTime := 1,
                      status := SpanStatus.unset, endTime := none }],
          out := "" }
        { time := 7, action := "run", pkg := "p", test := "T", output := "y" }
        = some st1 ∧
      lookupSD st1.registry "p.T"
        = some { ctx := Ctx.child 1, spanId := 1, startTime := 7 } ∧
      (0 : Nat) ≠ 1 ∧
      st1.spans[0]? = some { name := "T", parent := Ctx.global, startTime := 1,
                             status := SpanStatus.unset, endTime := none }) ∧
    (∃ st1, startSpanForLine Ctx.global
        { registry := [("TestA", { ctx := Ctx.nil, spanId := 0, startTime := 1 })],
          spans := [{ name := "TestA", parent := Ctx.global, startTime := 1,
                      status := SpanStatus.unset, endTime := none }],
          out := "" } 7 "=== RUN   TestA"
        = some st1 ∧
      lookupSD st1.registry "TestA"
        = some { ctx := Ctx.nil, spanId := 1, startTime := 7 } ∧
      (0 : Nat) ≠ 1 ∧
      st1.spans[0]? = some { name := "TestA", parent := Ctx.global, startTime := 1,
                             status := SpanStatus.unset, endTime := none }) := by
  constructor
  · exact claim8_duplicate_start.1 Ctx.global
      { registry := [("p.T", { ctx := Ctx.child 0, spanId := 0, startTime := 1 })],
        spans := [{ name := "T", parent := Ctx.global, startTime := 1,
                    status := SpanStatus.unset, endTime := none }],
        out := "" }
      { time := 7, action := "run", pkg := "p", test := "T", output := "y" }
      { ctx := Ctx.child 0, spanId := 0, startTime := 1 }
      { name := "T", parent := Ctx.global, startTime := 1,
        status := SpanStatus.unset, endTime := none }
      (Or.inr rfl) (by decide) (by decide)
  · exact claim8_duplicate_start.2.1 Ctx.global
      { registry := [("TestA", { ctx := Ctx.nil, spanId := 0, startTime := 1 })],
        spans := [{ name := "TestA", parent := Ctx.global, startTime := 1,
                    status := SpanStatus.unset, endTime := none }],
        out := "" }
      7 "=== RUN   TestA" "TestA"
      { ctx := Ctx.nil, spanId := 0, startTime := 1 }
      { name := "TestA", parent := Ctx.global, startTime := 1,
        status := SpanStatus.unset, endTime := none }
      (by decide) (by decide) (by decide)

/-! ## Claim C4: output relay -/

/-- One structured iteration never changes what was already printed and
always appends exactly `e.output` when it completes. -/
theorem traceStep_out (g : Ctx) (st : TState) (e : Event) (st1 : TState)
    (h : traceStep g st e = some st1) : st1.out = st.out ++ e.output := by
  by_cases hs : e.action = "start"
  · rw [traceStep_start g st e hs] at h
    cases Option.some_inj.mp h
    rfl
  by_cases hr : e.action = "run"
  · rw [traceStep_run g st e hr] at h
    cases Option.some_inj.mp h
    rfl
  by_cases ht : e.action = "pass" ∨ e.action = "fail" ∨ e.action = "skip"
  · cases hlk : lookupSD st.registry (testKey e.pkg e.test) with
    | none => rw [traceStep_term_none g st e ht hlk] at h; simp at h
    | some d =>
        rw [traceStep_term_found g st e d ht hlk] at h
        cases Option.some_inj.mp h
        rfl
  · push_neg at ht
    rw [traceStep_other g st e hs hr ht.1 ht.2.1 ht.2.2] at h
    cases Option.some_inj.mp h
    rfl

/-- A successful `parseLine` dispatch does not print anything itself
(the echo is the deferred statement, modelled in `parseRun`). -/
theorem parseLineCore_out (g : Ctx) (st : TState) (now : Int) (line : String)
    (st1 : TState) (h : parseLineCore g st now line = some st1) :
    st1.out = st.out := by
  rcases parseLineCore_cases g st now line st1 h with h1 | ⟨nm, _, h1⟩ |
    ⟨nm, dur, d, er, _, _, h1⟩ <;> subst h1 <;> rfl

/-- The structured consumer completes (no iteration `return`s early). -/
def stepsComplete (g : Ctx) : TState → List Event → Bool
  | _, [] => true
  | st, e :: es =>
      match traceStep g st e with
      | none => false
      | some st1 => stepsComplete g st1 es

/-- The unstructured consumer completes (no line handler panics). -/
def parseComplete (g : Ctx) : TState → List (Int × String) → Bool
  | _, [] => true
  | st, (now, line) :: rest =>
      match parseLineCore g st now line with
      | none => false
      | some st1 => parseComplete g { st1 with out := st1.out ++ line ++ "\n" } rest

/-- Concatenation of the `Output` fields of a structured event stream. -/
def concatOuts : List Event → String
  | [] => ""
  | e :: es => e.output ++ concatOuts es

/-- Concatenation of the input lines of an unstructured stream, each
with the newline that `fmt.Printf("%s\n", line)` re-appends. -/
def concatLines : List (Int × String) → String
  | [] => ""
  | (_, line) :: rest => line ++ "\n" ++ concatLines rest

/-- Counterexample to C4 as stated: in structured mode an orphan
terminal event (its own `Output` never printed) aborts the relay, and
in unstructured mode a line that panics the regex indexing cuts the
relay short after its own deferred echo. -/
theorem claim4_counterexample :
    (traceRun Ctx.global initState
      [{ time := 1, action := "pass", pkg := "p", test := "Ghost", output := "hello" },
       { time := 2, action := "start", pkg := "q", test := "", output := "world" }]).out
      = "" ∧
    concatOuts
      [{ time := 1, action := "pass", pkg := "p", test := "Ghost", output := "hello" },
       { time := 2, action := "start", pkg := "q", test := "", output := "world" }]
      = "helloworld" ∧
    ("" : String) ≠ "helloworld" ∧
    (parseRun Ctx.global initState
      [(0, "=== RUN   TestA"), (1, "--- FAIL: Foo (0.1s)"), (2, "ok")]).out
      = "=== RUN   TestA\n--- FAIL: Foo (0.1s)\n" ∧
    concatLines [((0 : Int), "=== RUN   TestA"), (1, "--- FAIL: Foo (0.1s)"), (2, "ok")]
      = "=== RUN   TestA\n--- FAIL: Foo (0.1s)\nok\n" ∧
    ("=== RUN   TestA\n--- FAIL: Foo (0.1s)\n" : String)
      ≠ "=== RUN   TestA\n--- FAIL: Foo (0.1s)\nok\n" := by
  refine ⟨by decide, by decide, by decide, by decide, by decide, by decide⟩

/-- Claim C4 (amended).  The concatenation of the relayed text equals
the input in original order provided processing completes: in
structured mode no orphan terminal event occurs (otherwise the
goroutine returns and the remaining output is lost), and in
unstructured mode no start/terminal-classified line misses the name
regex (otherwise the panic kills the process after the line's own
deferred echo). -/
theorem claim4_output_relay :
    (∀ (g : Ctx) (es : List Event) (st : TState),
        stepsComplete g st es = true →
        (traceRun g st es).out = st.out ++ concatOuts es) ∧
    (∀ (g : Ctx) (ls : List (Int × String)) (st : TState),
        parseComplete g st ls = true →
        (parseRun g st ls).out = st.out ++ concatLines ls) := by
  constructor
  · intro g es
    induction es with
    | nil =>
        intro st _
        rw [show concatOuts [] = "" from rfl, String.append_empty]
        rfl
    | cons e rest ih =>
        intro st hc
        cases hstep : traceStep g st e with
        | none => rw [stepsComplete, hstep] at hc; simp at hc
        | some st1 =>
            rw [stepsComplete, hstep] at hc
            rw [show traceRun g st (e :: rest) = traceRun g st1 rest from by
              rw [traceRun, hstep]]
            rw [ih st1 hc, traceStep_out g st e st1 hstep]
            rw [show concatOuts (e :: rest) = e.output ++ concatOuts rest from rfl]
            rw [String.append_assoc]
  · intro g ls
    induction ls with
    | nil =>
        intro st _
        rw [show concatLines [] = "" from rfl, String.append_empty]
        rfl
    | cons p rest ih =>
        obtain ⟨now, line⟩ := p
        intro st hc
        cases hstep : parseLineCore g st now line with
        | none => rw [parseComplete, hstep] at hc; simp at hc
        | some st1 =>
            rw [parseComplete, hstep] at hc
            rw [parseRun_cons_some g st st1 now line rest hstep]
            rw [ih _ hc, parseLineCore_out g st now line st1 hstep]
            rw [show concatLines ((now, line) :: rest)
                = line ++ "\n" ++ concatLines rest from rfl]
            rw [String.append_assoc, String.append_assoc, String.append_assoc]

/-- Witness for C4 (amended): a complete two-event structured stream
and a complete two-line unstructured stream relay exactly their
concatenated input. -/
theorem claim4_output_relay_witness :
    (traceRun Ctx.global initState
      [{ time := 1, action := "run", pkg := "p", test := "T", output := "a" },
       { time := 2, action := "pass", pkg := "p", test := "T", output := "b" }]).out
      = initState.out ++ concatOuts
        [{ time := 1, action := "run", pkg := "p", test := "T", output := "a" },
         { time := 2, action := "pass", pkg := "p", test := "T", output := "b" }] ∧
    (parseRun Ctx.global initState
      [(0, "=== RUN   TestA"), (5, "--- PASS: TestA (1.50s)")]).out
      = initState.out ++ concatLines
        [((0 : Int), "=== RUN   TestA"), (5, "--- PASS: TestA (1.50s)")] := by
  constructor
  · exact claim4_output_relay.1 Ctx.global
      [{ time := 1, action := "run", pkg := "p", test := "T", output := "a" },
       { time := 2, action := "pass", pkg := "p", test := "T", output := "b" }]
      initState (by decide)
  · exact claim4_output_relay.2 Ctx.global
      [((0 : Int), "=== RUN   TestA"), (5, "--- PASS: TestA (1.50s)")]
      initState (by decide)

/-! ## Claim C5: balanced spans on well-formed streams -/

/-- Association list of currently-open keys with their start
timestamps, used to specify well-formed streams. -/
def lookupPair : List (String × Int) → String → Option Int
  | [], _ => none
  | (k, t) :: rest, key => if k = key then some t else lookupPair rest key

/-- Remove the (first) entry with the given key. -/
def erasePair : List (String × Int) → String → List (String × Int)
  | [], _ => []
  | (k, t) :: rest, key =>
      if k = key then rest else (k, t) :: erasePair rest key

theorem lookupPair_mem (ps : List (String × Int)) (k : String) (t : Int)
    (h : lookupPair ps k = some t) : (k, t) ∈ ps := by
  induction ps with
  | nil => simp [lookupPair] at h
  | cons p rest ih =>
      obtain ⟨k0, t0⟩ := p
      by_cases hk : k0 = k
      · subst hk
        simp only [lookupPair, if_true] at h
        cases Option.some_inj.mp h
        exact List.mem_cons_self _ _
      · simp only [lookupPair, if_neg hk] at h
        exact List.mem_cons_of_mem _ (ih h)

theorem length_erasePair (ps : List (String × Int)) (k : String) (t : Int)
    (h : lookupPair ps k = some t) :
    (erasePair ps k).length + 1 = ps.length := by
  induction ps with
  | nil => simp [lookupPair] at h
  | cons p rest ih =>
      obtain ⟨k0, t0⟩ := p
      by_cases hk : k0 = k
      · simp [erasePair, hk]
      · simp only [lookupPair, if_neg hk] at h
        simp only [erasePair, if_neg hk, List.length_cons]
        rw [← ih h]

theorem erasePair_sublist (ps : List (String × Int)) (k : String) :
    List.Sublist (erasePair ps k) ps := by
  induction ps with
  | nil => simp [erasePair]
  | cons p rest ih =>
      obtain ⟨k0, t0⟩ := p
      by_cases hk : k0 = k
      · simp only [erasePair, if_pos hk]
        exact List.sublist_cons_self _ _
      · simp only [erasePair, if_neg hk]
        exact List.Sublist.cons₂ _ ih

theorem nodup_erasePair (ps : List (String × Int)) (k : String)
    (h : (ps.map Prod.fst).Nodup) : ((erasePair ps k).map Prod.fst).Nodup :=
  List.Sublist.nodup (List.Sublist.map Prod.fst (erasePair_sublist ps k)) h

theorem mem_erasePair (ps : List (String × Int)) (k : String)
    (hnd : (ps.map Prod.fst).Nodup) (p : String × Int)
    (h : p ∈ erasePair ps k) : p ∈ ps ∧ p.1 ≠ k := by
  induction ps with
  | nil => simp [erasePair] at h
  | cons q rest ih =>
      obtain ⟨k0, t0⟩ := q
      simp only [List.map_cons, List.nodup_cons] at hnd
      by_cases hk : k0 = k
      · subst hk
        simp only [erasePair, if_pos rfl] at h
        refine ⟨List.mem_cons_of_mem _ h, ?_⟩
        intro hpk
        exact hnd.1 (hpk ▸ List.mem_map_of_mem Prod.fst h)
      · simp only [erasePair, if_neg hk] at h
        rcases List.mem_cons.mp h with h1 | h1
        · subst h1
          exact ⟨List.mem_cons_self _ _, hk⟩
        · obtain ⟨hin, hne⟩ := ih hnd.2 h1
          exact ⟨List.mem_cons_of_mem _ hin, hne⟩

/-- Number of spans still open. -/
def countOpen (spans : List Span) : Nat :=
  spans.countP (fun s => s.endTime.isNone)

/-- Every closed span was closed at or after its start. -/
def closedOk (spans : List Span) : Prop :=
  ∀ s ∈ spans, ∀ t, s.endTime = some t → s.startTime ≤ t

/-- Well-formed structured event streams relative to the list of
currently open `(key, start-time)` pairs: every start/run event opens a
key that is not currently open (so it has exactly one matching
terminal), every terminal event closes a currently open key with a
timestamp no earlier than the start, and at the end nothing is open. -/
inductive WF : List (String × Int) → List Event → Prop where
  | nil : WF [] []
  | start (opens : List (String × Int)) (e : Event) (es : List Event) :
      e.action = "start" ∨ e.action = "run" →
      (∀ p ∈ opens, p.1 ≠ testKey e.pkg e.test) →
      WF ((testKey e.pkg e.test, e.time) :: opens) es →
      WF opens (e :: es)
  | term (opens : List (String × Int)) (e : Event) (es : List Event) (t0 : Int) :
      e.action = "pass" ∨ e.action = "fail" ∨ e.action = "skip" →
      lookupPair opens (testKey e.pkg e.test) = some t0 →
      t0 ≤ e.time →
      WF (erasePair opens (testKey e.pkg e.test)) es →
      WF opens (e :: es)
  | output (opens : List (String × Int)) (e : Event) (es : List Event) :
      e.action ≠ "start" → e.action ≠ "run" → e.action ≠ "pass" →
      e.action ≠ "fail" → e.action ≠ "skip" →
      WF opens es →
      WF opens (e :: es)

/-- Run-time invariant tying the registry, the span store and the
specification-level list of open keys together. -/
structure RInv (st : TState) (opens : List (String × Int)) : Prop where
  bound : ∀ k d, lookupSD st.registry k = some d → d.spanId < st.spans.length
  inj : ∀ k1 d1 k2 d2, lookupSD st.registry k1 = some d1 →
      lookupSD st.registry k2 = some d2 → d1.spanId = d2.spanId → k1 = k2
  open_spans : ∀ p ∈ opens, ∃ d s, lookupSD st.registry p.1 = some d ∧
      d.startTime = p.2 ∧ st.spans[d.spanId]? = some s ∧
      s.endTime = none ∧ s.startTime = p.2
  count : countOpen st.spans = opens.length
  closed : closedOk st.spans

theorem RInv_init : RInv initState [] := by
  constructor
  · intro k d h; simp [initState, lookupSD] at h
  · intro k1 d1 k2 d2 h; simp [initState, lookupSD] at h
  · intro p hp; simp at hp
  · rfl
  · intro s hs; simp [initState] at hs

theorem RInv_out (st : TState) (opens : List (String × Int)) (outText : String)
    (hinv : RInv st opens) :
    RInv { registry := st.registry, spans := st.spans, out := outText } opens :=
  ⟨hinv.bound, hinv.inj, hinv.open_spans, hinv.count, hinv.closed⟩

/-- Opening a fresh span under a fresh key preserves the invariant. -/
theorem RInv_start (st : TState) (opens : List (String × Int)) (key : String)
    (ts : Int) (ctxv : Ctx) (parent : Ctx) (nm : String) (outText : String)
    (hinv : RInv st opens) (hfresh : ∀ p ∈ opens, p.1 ≠ key) :
    RInv { registry := insertSD st.registry key
             { ctx := ctxv, spanId := st.spans.length, startTime := ts },
           spans := st.spans ++
             [{ name := nm, parent := parent, startTime := ts,
                status := SpanStatus.unset, endTime := none }],
           out := outText }
      ((key, ts) :: opens) := by
  constructor
  · intro k d hlk
    simp only [List.length_append, List.length_cons, List.length_nil]
    by_cases hk : k = key
    · subst hk
      rw [lookupSD_insertSD_self] at hlk
      cases hlk
      simp
    · rw [lookupSD_insertSD_ne _ _ _ _ hk] at hlk
      have := hinv.bound k d hlk
      omega
  · intro k1 d1 k2 d2 h1 h2 hsp
    by_cases hk1 : k1 = key <;> by_cases hk2 : k2 = key
    · rw [hk1, hk2]
    · exfalso
      subst hk1
      rw [lookupSD_insertSD_self] at h1
      rw [lookupSD_insertSD_ne _ _ _ _ hk2] at h2
      cases h1
      have := hinv.bound k2 d2 h2
      simp at hsp
      omega
    · exfalso
      subst hk2
      rw [lookupSD_insertSD_self] at h2
      rw [lookupSD_insertSD_ne _ _ _ _ hk1] at h1
      cases h2
      have := hinv.bound k1 d1 h1
      simp at hsp
      omega
    · rw [lookupSD_insertSD_ne _ _ _ _ hk1] at h1
      rw [lookupSD_insertSD_ne _ _ _ _ hk2] at h2
      exact hinv.inj k1 d1 k2 d2 h1 h2 hsp
  · intro p hp
    rcases List.mem_cons.mp hp with hp1 | hp1
    · subst hp1
      refine ⟨{ ctx := ctxv, spanId := st.spans.length, startTime := ts },
        { name := nm, parent := parent, startTime := ts,
          status := SpanStatus.unset, endTime := none },
        lookupSD_insertSD_self _ _ _, rfl, ?_, rfl, rfl⟩
      exact List.getElem?_concat_length _ _
    · obtain ⟨d, s, hlk, hdst, hsp, hopen, hsst⟩ := hinv.open_spans p hp1
      have hbd := hinv.bound p.1 d hlk
      refine ⟨d, s, ?_, hdst, ?_, hopen, hsst⟩
      · rw [lookupSD_insertSD_ne _ _ _ _ (hfresh p hp1)]
        exact hlk
      · rw [List.getElem?_append_left hbd]
        exact hsp
  · show countOpen (st.spans ++ [_]) = _
    rw [countOpen, List.countP_append]
    have hc : st.spans.countP (fun s => s.endTime.isNone) = opens.length :=
      hinv.count
    simp [hc, List.countP_cons]
  · intro s hs t hst
    rcases List.mem_append.mp hs with h1 | h1
    · exact hinv.closed s h1 t hst
    · simp only [List.mem_singleton] at h1
      subst h1
      simp at hst

/-- The terminal branch rewrites the span store to a single `set` of
the closed span. -/
theorem endSpan_if_shape (spans : List Span) (id : Nat) (ts : Int) (s : Span)
    (h : spans[id]? = some s) (hopen : s.endTime = none) (cond : Prop)
    [Decidable cond] :
    ∃ sNew, endSpan (if cond then setError spans id else spans) id ts
        = spans.set id sNew ∧
      sNew.endTime = some ts ∧ sNew.startTime = s.startTime := by
  have hlt : id < spans.length := (List.getElem?_eq_some.mp h).1
  by_cases hc : cond
  · rw [if_pos hc, setError_open spans id s h hopen]
    rw [endSpan_open _ id ts { s with status := SpanStatus.error }
      (List.getElem?_set_self hlt) hopen]
    rw [List.set_set]
    exact ⟨_, rfl, rfl, rfl⟩
  · rw [if_neg hc, endSpan_open spans id ts s h hopen]
    exact ⟨_, rfl, rfl, rfl⟩

/-- Closing an open key at a timestamp no earlier than its start
preserves the invariant. -/
theorem RInv_term (st : TState) (opens : List (String × Int)) (key : String)
    (t0 ts : Int) (outText : String) (cond : Prop) [Decidable cond]
    (d : SpanData) (hinv : RInv st opens)
    (hnd : (opens.map Prod.fst).Nodup)
    (hlkp : lookupPair opens key = some t0)
    (hd : lookupSD st.registry key = some d)
    (hts : t0 ≤ ts) :
    RInv { registry := st.registry,
           spans := endSpan (if cond then setError st.spans d.spanId else st.spans)
             d.spanId ts,
           out := outText }
      (erasePair opens key) := by
  obtain ⟨d0, s, hlk0, hdst, hsp, hopen, hsst⟩ :=
    hinv.open_spans (key, t0) (lookupPair_mem _ _ _ hlkp)
  have hd0 : d0 = d := Option.some_inj.mp (hlk0.symm.trans hd)
  rw [hd0] at hdst hsp
  obtain ⟨sNew, hshape, hend, hstart⟩ :=
    endSpan_if_shape st.spans d.spanId ts s hsp hopen cond
  constructor
  · intro k dk hlk
    rw [hshape, List.length_set]
    exact hinv.bound k dk hlk
  · exact hinv.inj
  · intro p hp
    obtain ⟨hpin, hpne⟩ := mem_erasePair opens key hnd p hp
    obtain ⟨dp, sp, hlkp2, hdstp, hspp, hopenp, hsstp⟩ := hinv.open_spans p hpin
    refine ⟨dp, sp, hlkp2, hdstp, ?_, hopenp, hsstp⟩
    rw [hshape, List.getElem?_set_ne, hspp]
    intro heq
    exact hpne (hinv.inj p.1 dp key d hlkp2 hd heq.symm)
  · show countOpen (endSpan (if cond then setError st.spans d.spanId else st.spans)
        d.spanId ts) = (erasePair opens key).length
    rw [hshape, countOpen]
    have hcount := countP_set (fun s => s.endTime.isNone) st.spans d.spanId s sNew hsp
    simp only [hopen, hend, Option.isNone_none, Option.isNone_some,
      Bool.false_eq_true, if_true, if_false] at hcount
    have hlen := length_erasePair opens key t0 hlkp
    have hc2 : st.spans.countP (fun s => s.endTime.isNone) = opens.length :=
      hinv.count
    omega
  · intro sx hsx t hst
    rw [hshape] at hsx
    rcases List.mem_or_eq_of_mem_set hsx with h1 | h1
    · exact hinv.closed sx h1 t hst
    · subst h1
      rw [hend] at hst
      cases hst
      rw [hstart, hsst]
      exact hts

/-- The structured consumer, run on a well-formed stream from a state
satisfying the invariant, closes every span it ever opened, each at or
after its start. -/
theorem traceRun_wf (g : Ctx) :
    ∀ (opens : List (String × Int)) (es : List Event), WF opens es →
      ∀ st : TState, RInv st opens → (opens.map Prod.fst).Nodup →
        countOpen (traceRun g st es).spans = 0 ∧
        closedOk (traceRun g st es).spans := by
  intro opens es hwf
  induction hwf with
  | nil =>
      intro st hinv _
      exact ⟨hinv.count, hinv.closed⟩
  | start opens1 e es1 hact hfresh hwf1 ih =>
      intro st hinv hnd
      have hnd1 : (((testKey e.pkg e.test, e.time) :: opens1).map Prod.fst).Nodup := by
        simp only [List.map_cons, List.nodup_cons]
        refine ⟨?_, hnd⟩
        intro hmem
        obtain ⟨p, hp, hpe⟩ := List.mem_map.mp hmem
        exact hfresh p hp hpe
      rcases hact with hs | hs
      · rw [show traceRun g st (e :: es1) = traceRun g
            { registry := insertSD st.registry (testKey e.pkg e.test)
                { ctx := Ctx.child st.spans.length, spanId := st.spans.length,
                  startTime := e.time },
              spans := st.spans ++
                [{ name := e.pkg, parent := g, startTime := e.time,
                   status := SpanStatus.unset, endTime := none }],
              out := st.out ++ e.output } es1 from by
          rw [traceRun, traceStep_start g st e hs]]
        exact ih _ (RInv_start st opens1 (testKey e.pkg e.test) e.time
          (Ctx.child st.spans.length) g e.pkg (st.out ++ e.output) hinv hfresh) hnd1
      · rw [show traceRun g st (e :: es1) = traceRun g
            { registry := insertSD st.registry (testKey e.pkg e.test)
                { ctx := Ctx.child st.spans.length, spanId := st.spans.length,
                  startTime := e.time },
              spans := st.spans ++
                [{ name := e.test,
                   parent := parentContext st.registry g e.pkg e.test,
                   startTime := e.time,
                   status := SpanStatus.unset, endTime := none }],
              out := st.out ++ e.output } es1 from by
          rw [traceRun, traceStep_run g st e hs]]
        exact ih _ (RInv_start st opens1 (testKey e.pkg e.test) e.time
          (Ctx.child st.spans.length) (parentContext st.registry g e.pkg e.test)
          e.test (st.out ++ e.output) hinv hfresh) hnd1
  | term opens1 e es1 t0 hact hlkp hts hwf1 ih =>
      intro st hinv hnd
      obtain ⟨d, s, hd, hdst, hsp, hopen, hsst⟩ :=
        hinv.open_spans _ (lookupPair_mem _ _ _ hlkp)
      rw [show traceRun g st (e :: es1) = traceRun g
          { st with
            spans := endSpan (if e.action = "fail" then setError st.spans d.spanId
              else st.spans) d.spanId e.time,
            out := st.out ++ e.output } es1 from by
        rw [traceRun, traceStep_term_found g st e d hact hd]]
      exact ih _ (RInv_term st opens1 (testKey e.pkg e.test) t0 e.time
        (st.out ++ e.output) (e.action = "fail") d hinv hnd hlkp hd hts)
        (nodup_erasePair _ _ hnd)
  | output opens1 e es1 h1 h2 h3 h4 h5 hwf1 ih =>
      intro st hinv hnd
      rw [show traceRun g st (e :: es1) = traceRun g
          { st with out := st.out ++ e.output } es1 from by
        rw [traceRun, traceStep_other g st e h1 h2 h3 h4 h5]]
      exact ih _ (RInv_out st opens1 (st.out ++ e.output) hinv) hnd

/-- When no span is left open, every span ever created has been closed. -/
theorem length_eq_countClosed (spans : List Span) (h : countOpen spans = 0) :
    spans.length = spans.countP (fun s => s.endTime.isSome) := by
  have h1 := countP_add_not (fun s => s.endTime.isSome) spans
  have h2 : spans.countP (fun s => !(s.endTime.isSome)) = countOpen spans := by
    rw [countOpen]
    refine List.countP_congr ?_
    intro s _
    cases s.endTime <;> simp
  omega

/-! ### The parsed duration is never negative -/

theorem checkDur_class (l run : List Char) (h : checkDur l = some run) :
    run ≠ [] ∧ ∀ c ∈ run, isDurClass c = true := by
  unfold checkDur at h
  split at h
  · rename_i w r
    split at h
    · split at h
      · split at h
        · exact absurd h (by simp)
        · rename_i hrun
          have hrr : run = List.takeWhile isDurClass r :=
            (Option.some_inj.mp h).symm
          subst hrr
          exact ⟨hrun, fun c hc => List.mem_takeWhile_imp hc⟩
      · exact absurd h (by simp)
    · exact absurd h (by simp)
  · exact absurd h (by simp)

theorem greedyDur_class (g1rev : List Char) :
    ∀ (rest : List Char) (nm run : List Char),
      greedyDur g1rev rest = some (nm, run) →
      run ≠ [] ∧ ∀ c ∈ run, isDurClass c = true := by
  induction g1rev with
  | nil => intro rest nm run h; simp [greedyDur] at h
  | cons c g1 ih =>
      intro rest nm run h
      unfold greedyDur at h
      split at h
      · cases hcd : checkDur rest with
        | some r =>
            rw [hcd] at h
            simp only [Option.some.injEq, Prod.mk.injEq] at h
            rw [← h.2]
            exact checkDur_class rest r hcd
        | none =>
            rw [hcd] at h
            exact ih (c :: rest) nm run h
      · exact absurd h (by simp)

theorem findNameDur_class (l : List Char) :
    ∀ (nm run : List Char), findNameDur l = some (nm, run) →
      run ≠ [] ∧ ∀ c ∈ run, isDurClass c = true := by
  induction l with
  | nil => intro nm run h; simp [findNameDur] at h
  | cons c rest ih =>
      intro nm run h
      unfold findNameDur at h
      split at h
      · cases hg : greedyDur (c :: rest).reverse [] with
        | some r =>
            rw [hg] at h
            obtain ⟨nm0, run0⟩ := r
            cases Option.some_inj.mp h
            exact greedyDur_class _ _ _ _ hg
        | none =>
            rw [hg] at h
            exact ih nm run h
      · exact ih nm run h

theorem goParseDuration_nonneg (s : String)
    (h : ¬(s.data.head? = some '-')) : 0 ≤ goParseDuration s := by
  have hneg : (decide (s.data.head? = some '-')) = false := decide_eq_false h
  rw [goParseDuration, goParseDuration?]
  simp only [hneg, Bool.false_eq_true, if_false]
  repeat' split
  all_goals try simp
  all_goals
    generalize goParseDurationLoop _ _ = o
    cases o <;> simp

theorem parseNameAndDuration_nonneg (line : String) (nm : String) (dur : Int)
    (h : parseNameAndDuration? line = some (nm, dur)) : 0 ≤ dur := by
  unfold parseNameAndDuration? at h
  cases hf : findNameDur line.data with
  | none => rw [hf] at h; exact absurd h (by simp)
  | some p =>
      rw [hf] at h
      obtain ⟨n0, r0⟩ := p
      have h2 : (String.mk n0, goParseDuration (String.mk r0)) = (nm, dur) :=
        Option.some_inj.mp h
      have hdur : dur = goParseDuration (String.mk r0) :=
        ((Prod.ext_iff.mp h2).2).symm
      obtain ⟨hrne, hrcls⟩ := findNameDur_class line.data n0 r0 hf
      rw [hdur]
      apply goParseDuration_nonneg
      intro hhead
      cases r0 with
      | nil => exact hrne rfl
      | cons c r1 =>
          simp only [List.head?_cons, Option.some.injEq] at hhead
          have := hrcls c (List.mem_cons_self _ _)
          rw [hhead] at this
          simp [isDurClass, isWordChar] at this

/-- Well-formed unstructured line streams relative to the list of
currently open `(name, start-time)` pairs: every `=== RUN` line names a
test not currently open, every `--- PASS`/`--- FAIL` line names a
currently open test (with the regexes succeeding), all other lines do
not touch the registry, and at the end nothing is open. -/
inductive WFL : List (String × Int) → List (Int × String) → Prop where
  | nil : WFL [] []
  | runl (opens : List (String × Int)) (now : Int) (line : String)
      (rest : List (Int × String)) (nm : String) :
      hasPfx "=== RUN" (goTrimSpace line) = true →
      containsStr (goTrimSpace line) "[no test files]" = false →
      parseName? (goTrimSpace line) = some nm →
      (∀ p ∈ opens, p.1 ≠ nm) →
      WFL ((nm, now) :: opens) rest →
      WFL opens ((now, line) :: rest)
  | endl (opens : List (String × Int)) (now : Int) (line : String)
      (rest : List (Int × String)) (nm : String) (dur t0 : Int) (er : Bool) :
      hasPfx (if er then "--- FAIL" else "--- PASS") (goTrimSpace line) = true →
      containsStr (goTrimSpace line) "[no test files]" = false →
      parseNameAndDuration? (goTrimSpace line) = some (nm, dur) →
      lookupPair opens nm = some t0 →
      WFL (erasePair opens nm) rest →
      WFL opens ((now, line) :: rest)
  | noopl (opens : List (String × Int)) (now : Int) (line : String)
      (rest : List (Int × String)) :
      (∀ (g2 : Ctx) (st2 : TState) (now2 : Int),
        parseLineCore g2 st2 now2 line = some st2) →
      WFL opens rest →
      WFL opens ((now, line) :: rest)

/-- The unstructured consumer, run on a well-formed line stream from a
state satisfying the invariant, closes every span it ever opened, each
at or after its start. -/
theorem parseRun_wf (g : Ctx) :
    ∀ (opens : List (String × Int)) (ls : List (Int × String)), WFL opens ls →
      ∀ st : TState, RInv st opens → (opens.map Prod.fst).Nodup →
        countOpen (parseRun g st ls).spans = 0 ∧
        closedOk (parseRun g st ls).spans := by
  intro opens ls hwf
  induction hwf with
  | nil =>
      intro st hinv _
      exact ⟨hinv.count, hinv.closed⟩
  | runl opens1 now line rest nm hpfx hnc hpn hfresh hwf1 ih =>
      intro st hinv hnd
      have hstep : parseLineCore g st now line = some
          { registry := insertSD st.registry nm
              { ctx := Ctx.nil, spanId := st.spans.length, startTime := now },
            spans := st.spans ++
              [{ name := nm, parent := g, startTime := now,
                 status := SpanStatus.unset, endTime := none }],
            out := st.out } := by
        rw [parseLineCore_runBranch g st now line hpfx hnc]
        exact startSpanForLine_found g st now _ nm hpn
      rw [parseRun_cons_some g st _ now line rest hstep]
      have hnd1 : (((nm, now) :: opens1).map Prod.fst).Nodup := by
        simp only [List.map_cons, List.nodup_cons]
        refine ⟨?_, hnd⟩
        intro hmem
        obtain ⟨p, hp, hpe⟩ := List.mem_map.mp hmem
        exact hfresh p hp hpe
      exact ih _ (RInv_start st opens1 nm now Ctx.nil g nm
        (st.out ++ line ++ "\n") hinv hfresh) hnd1
  | endl opens1 now line rest nm dur t0 er hpfx hnc hpd hlkp hwf1 ih =>
      intro st hinv hnd
      obtain ⟨d, s, hd, hdst, hsp, hopen, hsst⟩ :=
        hinv.open_spans _ (lookupPair_mem _ _ _ hlkp)
      have hdur : 0 ≤ dur := parseNameAndDuration_nonneg _ _ _ hpd
      have hstep : parseLineCore g st now line = some
          { st with spans :=
              (endSpan (if er then setError st.spans d.spanId else st.spans)
                d.spanId (d.startTime + dur)) } := by
        cases er with
        | false =>
            simp only [Bool.false_eq_true, if_false] at hpfx
            rw [parseLineCore_passBranch g st now line hpfx hnc]
            exact endSpanForLine_found st _ false nm dur d hpd hd
        | true =>
            simp only [if_true] at hpfx
            rw [parseLineCore_failBranch g st now line hpfx hnc]
            exact endSpanForLine_found st _ true nm dur d hpd hd
      rw [parseRun_cons_some g st _ now line rest hstep]
      have hts : t0 ≤ d.startTime + dur := by
        have : d.startTime = t0 := hdst
        omega
      exact ih _ (RInv_term st opens1 nm t0 (d.startTime + dur)
        (st.out ++ line ++ "\n") (er = true) d hinv hnd hlkp hd hts)
        (nodup_erasePair _ _ hnd)
  | noopl opens1 now line rest hno hwf1 ih =>
      intro st hinv hnd
      rw [parseRun_cons_some g st st now line rest (hno g st now)]
      exact ih _ (RInv_out st opens1 (st.out ++ line ++ "\n") hinv) hnd

/-- Counterexample to C5 as stated: with no constraint on timestamps
or on unmatched terminal events, the code violates both conclusions.
`[run T@5, pass T@3]` (one start, exactly one matching terminal) closes
its span at 3, before its start 5; and `[run A@1, pass B@2, pass A@3]`
(the single start/run has exactly one matching terminal) opens one span
but closes none, because the orphan terminal for `B` halts the
goroutine. -/
theorem claim5_counterexample :
    ((traceRun Ctx.global initState
        [{ time := 5, action := "run", pkg := "p", test := "T", output := "" },
         { time := 3, action := "pass", pkg := "p", test := "T", output := "" }]).spans.map
        (fun s => (s.startTime, s.endTime)) = [((5 : Int), some (3 : Int))] ∧
      ¬((5 : Int) ≤ 3)) ∧
    ((traceRun Ctx.global initState
        [{ time := 1, action := "run", pkg := "p", test := "A", output := "" },
         { time := 2, action := "pass", pkg := "p", test := "B", output := "" },
         { time := 3, action := "pass", pkg := "p", test := "A", output := "" }]).spans.length
        = 1 ∧
      (traceRun Ctx.global initState
        [{ time := 1, action := "run", pkg := "p", test := "A", output := "" },
         { time := 2, action := "pass", pkg := "p", test := "B", output := "" },
         { time := 3, action := "pass", pkg := "p", test := "A", output := "" }]).spans.countP
        (fun s => s.endTime.isSome) = 0) := by
  refine ⟨⟨by decide, by decide⟩, by decide, by decide⟩

/-- Claim C5 (amended).  For every well-formed stream — each start/run
event opens a key with exactly one matching later terminal event whose
timestamp is at least the start's, and terminal events only ever close
open keys — the number of spans opened equals the number closed, and
every closed span's end timestamp is at least its start timestamp; in
both modes (in the unstructured mode the end is start plus a
non-negative parsed duration, so no timestamp condition is needed). -/
theorem claim5_balanced_spans :
    (∀ es : List Event, WF [] es →
      (traceRun Ctx.global initState es).spans.length
        = (traceRun Ctx.global initState es).spans.countP
            (fun s => s.endTime.isSome) ∧
      closedOk (traceRun Ctx.global initState es).spans) ∧
    (∀ ls : List (Int × String), WFL [] ls →
      (parseRun Ctx.global initState ls).spans.length
        = (parseRun Ctx.global initState ls).spans.countP
            (fun s => s.endTime.isSome) ∧
      closedOk (parseRun Ctx.global initState ls).spans) := by
  constructor
  · intro es hwf
    obtain ⟨hc, hcl⟩ :=
      traceRun_wf Ctx.global [] es hwf initState RInv_init (by simp)
    exact ⟨length_eq_countClosed _ hc, hcl⟩
  · intro ls hwf
    obtain ⟨hc, hcl⟩ :=
      parseRun_wf Ctx.global [] ls hwf initState RInv_init (by simp)
    exact ⟨length_eq_countClosed _ hc, hcl⟩

/-- Witness for C5 (amended) on concrete well-formed streams in both
modes. -/
theorem claim5_balanced_spans_witness :
    ((traceRun Ctx.global initState
        [{ time := 1, action := "run", pkg := "p", test := "T", output := "a" },
         { time := 2, action := "pass", pkg := "p", test := "T", output := "b" }]).spans.length
      = (traceRun Ctx.global initState
        [{ time := 1, action := "run", pkg := "p", test := "T", output := "a" },
         { time := 2, action := "pass", pkg := "p", test := "T", output := "b" }]).spans.countP
          (fun s => s.endTime.isSome) ∧
      closedOk (traceRun Ctx.global initState
        [{ time := 1, action := "run", pkg := "p", test := "T", output := "a" },
         { time := 2, action := "pass", pkg := "p", test := "T", output := "b" }]).spans) ∧
    ((parseRun Ctx.global initState
        [(0, "=== RUN   TestA"), (5, "--- PASS: TestA (1.50s)")]).spans.length
      = (parseRun Ctx.global initState
        [(0, "=== RUN   TestA"), (5, "--- PASS: TestA (1.50s)")]).spans.countP
          (fun s => s.endTime.isSome) ∧
      closedOk (parseRun Ctx.global initState
        [(0, "=== RUN   TestA"), (5, "--- PASS: TestA (1.50s)")]).spans) := by
  constructor
  · apply claim5_balanced_spans.1
    apply WF.start [] _ _ (Or.inr rfl) (by simp)
    apply WF.term _ _ [] 1 (Or.inl rfl) (by decide) (by decide)
    rw [show erasePair [(testKey "p" "T", (1 : Int))] (testKey "p" "T") = []
      from by decide]
    exact WF.nil
  · apply claim5_balanced_spans.2
    apply WFL.runl [] 0 _ _ "TestA" (by decide) (by decide) (by decide) (by simp)
    apply WFL.endl _ 5 _ [] "TestA" 1500000000 0 false (by decide) (by decide)
      (by decide) (by decide)
    rw [show erasePair [("TestA", (0 : Int))] "TestA" = [] from by decide]
    exact WFL.nil

end GoTestTrace
